import Mathlib

/-!
Verification development for the `EUDataTool` class of
`src/smolagents_helpers/eu_data_tool.py`.

The Python code manipulates JSON-like dictionaries (insertion-ordered),
lists and strings.  We embed those shallowly:

* `JVal` is a JSON-like value (Python `None` is `JVal.null`); records
  (Python dicts) are insertion-ordered association lists `Rec` whose keys
  are distinct by construction, mirroring dict insertion/update semantics.
* Machine floats (`time.time()`) are modelled as `Int` timestamps: only
  comparisons/differences of timestamps matter to the claims.
* Network I/O cannot be executed, so each function that performs an HTTP
  request takes the outcome of that request as an explicit argument, with
  one constructor per outcome class the Python `except` clauses
  distinguish.  Everything downstream of the request is translated from
  the source.
-/

inductive JVal where
  | null : JVal
  | s : String → JVal
  | num : Int → JVal
  | list : List JVal → JVal
  | obj : List (String × JVal) → JVal
deriving Repr

/-- A Python dict with string keys, in insertion order. -/
abbrev Rec := List (String × JVal)

/-- Python truthiness (`bool(v)`) for the JSON values that occur here. -/
def pyTruthy : JVal → Bool
  | .null => false
  | .s v => v != ""
  | .num n => n != 0
  | .list l => !l.isEmpty
  | .obj m => !m.isEmpty

/-- Model of `d.get(k)` (`None` default): the first binding of `k`, if any. -/
def lookupKey : Rec → String → Option JVal
  | [], _ => none
  | kv :: t, k => if kv.1 = k then some kv.2 else lookupKey t k

/-- Model of `d.get(k, default)`. -/
def getKeyD (r : Rec) (k : String) (d : JVal) : JVal :=
  (lookupKey r k).getD d

/-- Model of `k in d`. -/
def containsKey : Rec → String → Bool
  | [], _ => false
  | kv :: t, k => kv.1 = k || containsKey t k

/-- Model of `d[k] = v`: update the (unique) existing binding in place, else
append.  Keys are unique in every record the model builds, so replacing
the first binding coincides with Python dict assignment. -/
def setKey : Rec → String → JVal → Rec
  | [], k, v => [(k, v)]
  | kv :: t, k, v => if kv.1 = k then (k, v) :: t else kv :: setKey t k v

/-- Model of `d.pop(k, None)` (the record part; the popped value is read with
`getKeyD` before popping). -/
def popKey : Rec → String → Rec
  | [], _ => []
  | kv :: t, k => if kv.1 = k then popKey t k else kv :: popKey t k

/-- Model of `x or y` on values (Python returns `y` whenever `x` is falsy). -/
def pyOr (x y : JVal) : JVal :=
  if pyTruthy x then x else y

/-- Model of `v is None`. -/
def isNull : JVal → Bool
  | .null => true
  | _ => false

/-- Model of `v == []` for a JSON value (only an empty list compares equal). -/
def isEmptyList : JVal → Bool
  | .list [] => true
  | _ => false

/-- Python `==` restricted to the scalar values compared in the source
(cache timestamps and `modified` date strings).  The source compares with
general `==`; every comparison site the claims touch only ever sees JSON
scalars, so deep list/object equality is not modelled (non-scalar pairs
are conservatively unequal). -/
def jvalEqAtom : JVal → JVal → Bool
  | .null, .null => true
  | .s a, .s b => a = b
  | .num a, .num b => a = b
  | _, _ => false

-- ### Python string primitives
-- Python string functions are modelled over `List Char` (code points),
-- matching Python's indexing/slicing/length semantics.  `str.upper`,
-- `str.lower` and `str.isalnum` are Unicode-aware in Python; the ASCII
-- fragment modelled by `Char.toUpper`/`Char.isAlphanum` is all that the
-- claims exercise, and no claim depends on the exact character table.

/-- Model of `s.upper()` (ASCII fragment). -/
def pyUpper (t : String) : String := String.mk (t.data.map Char.toUpper)

/-- Model of `s.lower()` (ASCII fragment). -/
def pyLower (t : String) : String := String.mk (t.data.map Char.toLower)

/-- Model of `s[:n]` — slicing by code points. -/
def pyTake (t : String) (n : Nat) : String := String.mk (t.data.take n)

/-- Model of `needle in hay` on char lists. -/
def occursList (pat : List Char) : List Char → Bool
  | [] => pat.isEmpty
  | c :: cs => List.isPrefixOf pat (c :: cs) || occursList pat cs

/-- Model of `needle in hay` for strings (Python substring test). -/
def strOccurs (needle hay : String) : Bool := occursList needle.data hay.data

/-- Model of `s.startswith(pre)`. -/
def strStarts (t pre : String) : Bool := List.isPrefixOf pre.data t.data

/-- Model of `s.endswith(suf)`. -/
def strEnds (t suf : String) : Bool := List.isSuffixOf suf.data t.data

/-- Model of `s.split(sep)` for a one-character separator (no collapsing of empty
parts, exactly like Python). -/
def splitChar (sep : Char) : List Char → List (List Char)
  | [] => [[]]
  | c :: cs =>
    if c = sep then [] :: splitChar sep cs
    else
      match splitChar sep cs with
      | [] => [[c]]
      | h :: t => (c :: h) :: t

/-- Model of `s.split(sep)` on strings. -/
def pySplit (t : String) (sep : Char) : List String :=
  (splitChar sep t.data).map String.mk

/-- Worker for `str.replace`: replaces every non-overlapping occurrence
left to right.  `fuel` bounds recursion (`fuel = length of the input`
always suffices since every step consumes at least one character). -/
def replaceAllAux (pat rep : List Char) : Nat → List Char → List Char
  | 0, l => l
  | _ + 1, [] => []
  | fuel + 1, c :: cs =>
    if !pat.isEmpty && List.isPrefixOf pat (c :: cs) then
      rep ++ replaceAllAux pat rep fuel (List.drop pat.length (c :: cs))
    else
      c :: replaceAllAux pat rep fuel cs

/-- Model of `s.replace(pat, rep)`. -/
def pyReplace (t pat rep : String) : String :=
  String.mk (replaceAllAux pat.data rep.data t.data.length t.data)

-- ### `EUDataTool._sanitize_filename` (eu_data_tool.py lines 66-79)

/-- Model of `_sanitize_filename`: strip URL scheme and separators, keep only
alphanumeric / `_` / `-` / `.` characters, truncate to 150. -/
def sanitize_filename (u : String) : String :=
  let s1 := pyReplace u "http://" ""
  let s2 := pyReplace s1 "https://" ""
  let s3 := pyReplace s2 "/" "_"
  let s4 := pyReplace s3 ":" "_"
  let s5 := pyReplace s4 "?" "_"
  let s6 := pyReplace s5 "&" "_"
  let s7 := pyReplace s6 "=" "_"
  let kept := s7.data.filter (fun c => c.isAlphanum || c = '_' || c = '-' || c = '.')
  String.mk (kept.take 150)

-- ### `EUDataTool._extract_uuid_from_uri` (eu_data_tool.py lines 651-672)
-- The two `re.search` calls are modelled as leftmost-position scans; the
-- alternation `(?:datasets|dataset|set/data)` is tried left to right at
-- each position, exactly as the regex engine does.

/-- Hexadecimal digit (`[0-9a-fA-F]`). -/
def isHexDigit (c : Char) : Bool :=
  let n := c.toNat
  (48 ≤ n && n ≤ 57) || (97 ≤ n && n ≤ 102) || (65 ≤ n && n ≤ 70)

/-- Consume exactly `n` hex digits. -/
def dropHex : Nat → List Char → Option (List Char)
  | 0, l => some l
  | _ + 1, [] => none
  | n + 1, c :: cs => if isHexDigit c then dropHex n cs else none

/-- Consume a literal dash. -/
def dropDash : List Char → Option (List Char)
  | c :: cs => if c = '-' then some cs else none
  | [] => none

/-- Consume an 8-4-4-4-12 UUID, returning the remaining characters. -/
def uuidRest (l : List Char) : Option (List Char) :=
  (dropHex 8 l).bind fun l1 =>
  (dropDash l1).bind fun l2 =>
  (dropHex 4 l2).bind fun l3 =>
  (dropDash l3).bind fun l4 =>
  (dropHex 4 l4).bind fun l5 =>
  (dropDash l5).bind fun l6 =>
  (dropHex 4 l6).bind fun l7 =>
  (dropDash l7).bind fun l8 =>
  dropHex 12 l8

/-- Match a UUID at the head, returning its 36 characters. -/
def matchUuidAt (l : List Char) : Option String :=
  match uuidRest l with
  | some _ => some (String.mk (l.take 36))
  | none => none

/-- Strip a literal token. -/
def stripTok (p : List Char) (l : List Char) : Option (List Char) :=
  if List.isPrefixOf p l then some (List.drop p.length l) else none

/-- First regex of `_extract_uuid_from_uri` at one position. -/
def tryPat1At (l : List Char) : Option String :=
  match (stripTok "/datasets/".data l).bind matchUuidAt with
  | some u => some u
  | none =>
    match (stripTok "/dataset/".data l).bind matchUuidAt with
    | some u => some u
    | none => (stripTok "/set/data/".data l).bind matchUuidAt

/-- Second regex (`/set/{uuid}(/|$)`) at one position. -/
def tryPat2At (l : List Char) : Option String :=
  (stripTok "/set/".data l).bind fun l2 =>
    match uuidRest l2 with
    | some [] => some (String.mk (l2.take 36))
    | some (c :: _) => if c = '/' then some (String.mk (l2.take 36)) else none
    | none => none

/-- Model of `re.search`: try every position left to right. -/
def searchList (tryAt : List Char → Option String) : List Char → Option String
  | [] => none
  | c :: rest =>
    match tryAt (c :: rest) with
    | some u => some u
    | none => searchList tryAt rest

/-- Model of `_extract_uuid_from_uri`: first pattern, then the `/set/` pattern. -/
def extract_uuid_from_uri (uri : String) : Option String :=
  match searchList tryPat1At uri.data with
  | some u => some u
  | none => searchList tryPat2At uri.data

-- ### `EUDataTool._execute_sparql_query` (eu_data_tool.py lines 81-179)
-- The cache directory is modelled as an association list from file path
-- to file state; a structurally invalid JSON payload is `corrupt`.  The
-- md5 cache-key hash cannot be computed in the embedding, so the model
-- takes the derived cache path and the caller-supplied suffix as
-- arguments; the file-name format itself (`sparql_{hash}_{suffix}.json`)
-- is modelled separately by `sparqlCacheFileName` for the cache-clearing
-- claim.  A `store` is modelled as a plain write: the temp-file +
-- `os.replace` dance only matters under crashes, which the model does
-- not have.

/-- Model of `sparql_{query_hash}_{cache_key_suffix}.json` (lines 89-93). -/
def sparqlCacheFileName (queryHash suffix : String) : String :=
  "sparql_" ++ queryHash ++ "_" ++ suffix ++ ".json"

/-- Cache-key suffix of one SPARQL-fallback property query (lines
1079-1081). -/
def propCacheSuffix (sparqlUri propName : String) : String :=
  "sparql_prop_" ++ sanitize_filename sparqlUri ++ "_" ++ propName

/-- Cache-key suffix of the SPARQL-fallback distribution query (line
1140). -/
def distCacheSuffix (sparqlUri : String) : String :=
  "sparql_dist_" ++ sanitize_filename sparqlUri

/-- One cache file: a parsed JSON payload (which may carry the internal
`_cache_timestamp` key) or unparseable bytes. -/
inductive CacheFile where
  | entry : Rec → CacheFile
  | corrupt : CacheFile
deriving Repr

/-- The cache directory: path ↦ file. -/
abbrev FS := List (String × CacheFile)

def fsLookup : FS → String → Option CacheFile
  | [], _ => none
  | kv :: t, k => if kv.1 = k then some kv.2 else fsLookup t k

def fsRemove : FS → String → FS
  | [], _ => []
  | kv :: t, k => if kv.1 = k then fsRemove t k else kv :: fsRemove t k

def fsWrite (fs : FS) (k : String) (v : CacheFile) : FS :=
  (fsRemove fs k) ++ [(k, v)]

/-- Outcome of the `requests.get` + `response.json()` pair, one
constructor per `except` class of lines 158-179: a parsed 2xx response,
a 2xx response whose body is not JSON (`json.JSONDecodeError`), or a
`RequestException` which carries a response (status code and body text)
exactly when `e.response is not None`. -/
inductive HttpOutcome where
  | ok : Rec → HttpOutcome
  | badJson : String → HttpOutcome
  | reqFail : Option (Int × String) → String → HttpOutcome

/-- Strip internal fields: `{k: v for k, v in d.items() if not
k.startswith("_")}` (lines 106-108). -/
def stripInternal (r : Rec) : Rec :=
  r.filter (fun kv => !(strStarts kv.1 "_"))

/-- Error message of the `RequestException` branch (lines 158-169). -/
def sparqlFailMsg (suffix excMsg : String) (resp : Option (Int × String)) : String :=
  let base := "SPARQL query failed (" ++ suffix ++ "): " ++ excMsg
  match resp with
  | none => base
  | some (st, body) =>
    base ++ " - Status Code: " ++ toString st ++ " - Response: " ++ pyTake body 500

/-- Error message of the `json.JSONDecodeError` branch (lines 173-176). -/
def sparqlBadJsonMsg (suffix excMsg : String) : String :=
  "Failed to decode SPARQL JSON response (" ++ suffix ++ "): " ++ excMsg

/-- The `{"error": ..., "results": {"bindings": []}}` record returned by
both failure branches (lines 172 and 179). -/
def sparqlErrorRecord (msg : String) : Rec :=
  [("error", JVal.s msg), ("results", JVal.obj [("bindings", JVal.list [])])]

/-- Fetch-and-cache phase of `_execute_sparql_query` (lines 122-179),
entered when the cache did not serve the request. -/
def sparqlFetch (cacheEnabled : Bool) (now : Int) (fs : FS)
    (cachePath suffix : String) (outcome : HttpOutcome) : Rec × FS :=
  match outcome with
  | .ok results =>
    let fs' :=
      if cacheEnabled then
        fsWrite fs cachePath (CacheFile.entry (setKey results "_cache_timestamp" (JVal.num now)))
      else fs
    (results, fs')
  | .badJson excMsg => (sparqlErrorRecord (sparqlBadJsonMsg suffix excMsg), fs)
  | .reqFail resp excMsg => (sparqlErrorRecord (sparqlFailMsg suffix excMsg resp), fs)

/-- Model of `_execute_sparql_query`: cache lookup (with TTL check and corruption
self-healing), then fetch.  Returns the result record and the new cache
state. -/
def execute_sparql_query (cacheEnabled : Bool) (cacheTtl now : Int) (fs : FS)
    (cachePath suffix : String) (forceRefresh : Bool)
    (outcome : HttpOutcome) : Rec × FS :=
  if cacheEnabled && !forceRefresh then
    match fsLookup fs cachePath with
    | some (CacheFile.entry payload) =>
      let cacheTime : Int :=
        match lookupKey payload "_cache_timestamp" with
        | some (JVal.num t) => t
        | _ => 0
      if now - cacheTime < cacheTtl then (stripInternal payload, fs)
      else sparqlFetch cacheEnabled now fs cachePath suffix outcome
    | some CacheFile.corrupt =>
      sparqlFetch cacheEnabled now (fsRemove fs cachePath) cachePath suffix outcome
    | none => sparqlFetch cacheEnabled now fs cachePath suffix outcome
  else sparqlFetch cacheEnabled now fs cachePath suffix outcome

-- ### `EUDataTool._get_metadata_from_sparql_fallback` (lines 963-1213)
-- Each of the ten property queries and the distribution query is an
-- independent `_execute_sparql_query` call; the model receives each
-- call's result directly.  A result is either the error record (modelled
-- as `err msg`, i.e. a record with an `error` key and empty bindings,
-- which is exactly what `_execute_sparql_query` produces on failure) or
-- a binding list.  A binding row maps a variable name to the `value`
-- field of its inner SPARQL-JSON cell; the inner cell of a real
-- SPARQL-results row is a non-empty dict that always carries `value`,
-- so dict truthiness (line 1109) coincides with presence here.

/-- One SPARQL result row: variable name ↦ cell value. -/
abbrev Row := List (String × String)

def rowGet : Row → String → Option String
  | [], _ => none
  | kv :: t, k => if kv.1 = k then some kv.2 else rowGet t k

/-- Result of one sub-query as seen by the fallback code. -/
inductive QueryResult where
  | ok : List Row → QueryResult
  | err : String → QueryResult

/-- The eleven sub-query results consumed by the fallback, in the order
the `queries` dict defines them (lines 985-1041) plus the distribution
query (lines 1126-1143). -/
structure FallbackInput where
  title : QueryResult
  description : QueryResult
  publisherName : QueryResult
  publisherUri : QueryResult
  modified : QueryResult
  issued : QueryResult
  keywords : QueryResult
  themes : QueryResult
  languages : QueryResult
  licenses : QueryResult
  dist : QueryResult

/-- The `queries` dict flattened to (name, is_multi, result) in insertion
order. -/
def propQueryList (inp : FallbackInput) : List (String × Bool × QueryResult) :=
  [ ("title", false, inp.title)
  , ("description", false, inp.description)
  , ("publisherName", false, inp.publisherName)
  , ("publisherUri", false, inp.publisherUri)
  , ("modified", false, inp.modified)
  , ("issued", false, inp.issued)
  , ("keywords", true, inp.keywords)
  , ("themes", true, inp.themes)
  , ("languages", true, inp.languages)
  , ("licenses", true, inp.licenses) ]

/-- Error text of lines 1096-1100 (the source wraps the property name in
single quotes; the punctuation is elided here). -/
def propErrMsg (propName errText : String) : String :=
  "Failed to fetch SPARQL property " ++ propName ++ ": " ++ errText

/-- One iteration of the property loop (lines 1051-1113): on an error
response record the `error_<prop>` marker and collect the message; on
bindings store the single value / the list of truthy values; on empty
bindings leave the property absent. -/
def propStep (acc : Rec × List String) (p : String × Bool × QueryResult) :
    Rec × List String :=
  match p.2.2 with
  | .err e =>
    let msg := propErrMsg p.1 e
    (setKey acc.1 ("error_" ++ p.1) (JVal.s msg), acc.2 ++ [msg])
  | .ok bindings =>
    match bindings with
    | [] => acc
    | b0 :: _ =>
      if p.2.1 then
        -- multi-valued: `[b.get(v, {}).get("value") for b in bindings if ...]`
        let vals := bindings.filterMap (fun b =>
          match rowGet b "value" with
          | some v => if v ≠ "" then some (JVal.s v) else none
          | none => none)
        (setKey acc.1 p.1 (JVal.list vals), acc.2)
      else
        -- single-valued: `elif bindings[0].get(target_var): ...`
        match rowGet b0 "value" with
        | some v => (setKey acc.1 p.1 (JVal.s v), acc.2)
        | none => acc

/-- Distribution-row processing (lines 1164-1192): build the per-row
dict, drop `None`/empty-string fields, keep rows with a URI or URL,
dedupe by distribution URI. -/
def distRowStep (acc : List JVal × List String) (row : Row) :
    List JVal × List String :=
  match rowGet row "dist" with
  | none => acc
  | some distUri =>
    if distUri ≠ "" && !acc.2.contains distUri then
      let field := fun (k v : String) => (k, JVal.s v)
      let distData : Rec :=
        [("uri", JVal.s distUri)]
        ++ (match rowGet row "downloadURL" with | some v => [field "downloadURL" v] | none => [])
        ++ (match rowGet row "accessURL" with | some v => [field "accessURL" v] | none => [])
        ++ (match rowGet row "distTitle" with | some v => [field "title" v] | none => [])
        ++ (match rowGet row "format_str" with | some v => [field "format" v] | none => [])
        ++ (match rowGet row "mediaType" with | some v => [field "mediaType" v] | none => [])
        ++ (match rowGet row "byteSize" with | some v => [field "byteSize" v] | none => [])
      let cleaned := distData.filter
        (fun kv => !(isNull kv.2) && !(jvalEqAtom kv.2 (JVal.s "")))
      if pyTruthy (getKeyD cleaned "uri" JVal.null)
          || pyTruthy (getKeyD cleaned "downloadURL" JVal.null)
          || pyTruthy (getKeyD cleaned "accessURL" JVal.null) then
        (acc.1 ++ [JVal.obj cleaned], acc.2 ++ [distUri])
      else acc
    else acc

/-- Keys probed by the `core_data_found` check (line 1195): the keys of
the `queries` dict plus `publisher`; the check is an `any`, so set
iteration order is irrelevant. -/
def coreDataKeys : List String :=
  [ "title", "description", "publisherName", "publisherUri", "modified"
  , "issued", "keywords", "themes", "languages", "licenses", "publisher" ]

/-- Lines 972-1113 of `_get_metadata_from_sparql_fallback`: the initial
record (`uri`, `sparql_uri_used`) followed by the property-query loop. -/
def fallbackAfterProps (datasetUri : String) (inp : FallbackInput) :
    Rec × List String :=
  (propQueryList inp).foldl propStep
    ([("uri", JVal.s datasetUri), ("sparql_uri_used", JVal.s datasetUri)], [])

/-- Lines 1115-1123: the publisher fix-ups.
`metadata["publisher"] = metadata.pop("publisherName", None) or
metadata.get("publisher")`, then promotion of `publisherUri` to
`publisher_uri` when no name was found. -/
def fallbackPublisherFix (m1 : Rec) : Rec :=
  let pubName := getKeyD m1 "publisherName" JVal.null
  let m2 := popKey m1 "publisherName"
  let m3 := setKey m2 "publisher" (pyOr pubName (getKeyD m2 "publisher" JVal.null))
  if !(pyTruthy (getKeyD m3 "publisher" JVal.null))
      && pyTruthy (getKeyD m3 "publisherUri" JVal.null) then
    setKey (popKey m3 "publisherUri") "publisher_uri" (getKeyD m3 "publisherUri" JVal.null)
  else
    popKey m3 "publisherUri"

/-- Lines 1145-1192: `metadata["distributions"] = []` followed by the
distribution-query processing. -/
def fallbackWithDists (m4 : Rec) (errs : List String) (dq : QueryResult) :
    Rec × List String :=
  let m5 := setKey m4 "distributions" (JVal.list [])
  match dq with
  | .err e =>
    let msg := "Failed to fetch SPARQL distributions: " ++ e
    (setKey m5 "error_distributions" (JVal.s msg), errs ++ [msg])
  | .ok rows =>
    (setKey m5 "distributions" (JVal.list (rows.foldl distRowStep ([], [])).1), errs)

/-- Lines 972-1192 of `_get_metadata_from_sparql_fallback`: everything
up to the consolidated-error check.  Returns the metadata record and the
`combined_errors` list. -/
def fallbackCore (datasetUri : String) (inp : FallbackInput) : Rec × List String :=
  let a := fallbackAfterProps datasetUri inp
  fallbackWithDists (fallbackPublisherFix a.1) a.2 inp.dist

/-- Model of `_get_metadata_from_sparql_fallback`.  `force_refresh` only chooses
whether the sub-queries hit their caches, which is upstream of the
supplied `FallbackInput`, so it does not appear here. -/
def get_metadata_from_sparql_fallback (datasetUri : String)
    (inp : FallbackInput) : Rec :=
  let m6 := (fallbackCore datasetUri inp).1
  let combinedErrors := (fallbackCore datasetUri inp).2
  -- lines 1194-1206: consolidated-error check
  let coreDataFound := coreDataKeys.any (fun k => containsKey m6 k)
  if !coreDataFound && !(pyTruthy (getKeyD m6 "distributions" JVal.null))
      && !combinedErrors.isEmpty then
    [("error", JVal.s ("SPARQL fallback failed to retrieve any metadata or distributions for "
      ++ datasetUri ++ ". Errors: " ++ String.intercalate "; " combinedErrors))]
  else
    -- lines 1209-1213
    if !combinedErrors.isEmpty then
      setKey m6 "sparql_errors" (JVal.list (combinedErrors.map JVal.s))
    else m6

-- ### `EUDataTool._get_value` (eu_data_tool.py lines 674-722)

/-- Model of `prefer_locale and item_lang == prefer_locale` (line 712): the stored
`@language` tag equals the preferred locale string. -/
def langMatches (lang : JVal) (loc : String) : Bool :=
  loc ≠ "" && jvalEqAtom lang (JVal.s loc)

/-- Loop body of `_get_value` (lines 698-716): accumulate
`(results_list, preferred_result, any_result)`; `None` results are
represented by `JVal.null`. -/
def getValueStep (preferLocale : String) (acc : List JVal × JVal × JVal)
    (item : JVal) : List JVal × JVal × JVal :=
  let itemPair : JVal × JVal :=
    match item with
    | .obj m =>
      let v0 := getKeyD m "@value" JVal.null
      let v1 := if isNull v0 then getKeyD m "@id" JVal.null else v0
      (v1, getKeyD m "@language" JVal.null)
    | .s str => (JVal.s str, JVal.null)
    | _ => (JVal.null, JVal.null)
  if isNull itemPair.1 then acc
  else
    ( acc.1 ++ [itemPair.1]
    , if langMatches itemPair.2 preferLocale && isNull acc.2.1 then itemPair.1 else acc.2.1
    , if isNull acc.2.2 then itemPair.1 else acc.2.2 )

/-- Model of `_get_value`.  `prefer_locale` is always a string at every call site
(the Python default is `"en"`), so it is modelled as `String`. -/
def get_value (node : Option Rec) (propertyUri : String)
    (preferLocale : String) (allowList : Bool) : JVal :=
  match node with
  | none => if allowList then JVal.list [] else JVal.null
  | some nd =>
    let value := getKeyD nd propertyUri JVal.null
    if isNull value then (if allowList then JVal.list [] else JVal.null)
    else
      let values := match value with | .list l => l | v => [v]
      let acc := values.foldl (getValueStep preferLocale) ([], JVal.null, JVal.null)
      if allowList then JVal.list acc.1 else pyOr acc.2.1 acc.2.2

-- ### `EUDataTool._get_metadata_from_rest_api` (lines 724-961)
-- The HTTP outcome is an input (see `RestOutcome`).  Graphs whose nodes
-- are not JSON objects, and nodes whose `@id` is an (unhashable) list or
-- object, make the Python `nodes_by_id` comprehension raise
-- `AttributeError`/`TypeError`, which lines 952-957 convert to a parse
-- error record; the model checks for those shapes up front and returns
-- the same error record.

/-- Model of `x in node_type` where `node_type = node.get("@type", [])` (lines
770-773): Python list membership for a list, substring test for a
string, key membership for a dict.  (A number or `None` there would
raise `TypeError`, which the surrounding handler turns into a parse
error record; no real graph carries such a `@type`.) -/
def typeContains (needle : String) : JVal → Bool
  | .list l => l.any (fun x => jvalEqAtom x (JVal.s needle))
  | .s v => strOccurs needle v
  | .obj m => containsKey m needle
  | _ => false

/-- Node index: `@id` ↦ node, later nodes overwriting earlier ones like
a dict comprehension.  Only string keys are retained: a numeric `@id` is
hashable (so it does not raise) but no later lookup consults the index
with anything but a string, so dropping it is observationally
equivalent. -/
def nodesInsert : List (String × Rec) → String → Rec → List (String × Rec)
  | [], k, v => [(k, v)]
  | kv :: t, k, v => if kv.1 = k then (k, v) :: t else kv :: nodesInsert t k v

def nodesGet : List (String × Rec) → String → Option Rec
  | [], _ => none
  | kv :: t, k => if kv.1 = k then some kv.2 else nodesGet t k

/-- Model of `nodes_by_id` (lines 760-764). -/
def buildNodesById (nodes : List Rec) : List (String × Rec) :=
  nodes.foldl (fun m nd =>
    match getKeyD nd "@id" JVal.null with
    | .s v => if v ≠ "" then nodesInsert m v nd else m
    | _ => m) []

/-- A node whose truthy `@id` is a list or object would raise
`TypeError` as a dict key. -/
def hasUnhashableId (nd : Rec) : Bool :=
  match getKeyD nd "@id" JVal.null with
  | .list l => !l.isEmpty
  | .obj m => !m.isEmpty
  | _ => false

/-- Dataset-node search, primary pass (lines 766-777): type contains
`dcat:Dataset` and the id equals the input URI or contains the UUID. -/
def findDatasetNode (nodes : List Rec) (datasetUri uuid : String) : Option Rec :=
  nodes.find? (fun nd =>
    typeContains "dcat:Dataset" (getKeyD nd "@type" (JVal.list []))
    && (jvalEqAtom (getKeyD nd "@id" (JVal.s "")) (JVal.s datasetUri)
        || (match getKeyD nd "@id" (JVal.s "") with
            | .s v => strOccurs uuid v
            | _ => false)))

/-- Fallback pass (lines 779-789): first node of type `dcat:Dataset`. -/
def findAnyDatasetNode (nodes : List Rec) : Option Rec :=
  nodes.find? (fun nd => typeContains "dcat:Dataset" (getKeyD nd "@type" (JVal.list [])))

/-- Distribution-node resolution (lines 795-810). -/
def resolveDistNodes (nodesById : List (String × Rec)) (distRefs : List JVal) :
    List Rec :=
  distRefs.foldl (fun acc ref =>
    match ref with
    | .s v =>
      match nodesGet nodesById v with
      | some nd =>
        if typeContains "dcat:Distribution" (getKeyD nd "@type" (JVal.list []))
        then acc ++ [nd] else acc
      | none => acc
    | .obj m =>
      if typeContains "dcat:Distribution" (getKeyD m "@type" (JVal.list []))
      then acc ++ [m] else acc
    | _ => acc) []

/-- Publisher block (lines 828-860), as the ordered key/value pairs it
inserts into the metadata dict. -/
def restPublisherPairs (nodesById : List (String × Rec)) (locale : String)
    (dsNode : Rec) : Rec :=
  match get_value (some dsNode) "dct:publisher" "en" false with
  | .s v =>
    if strStarts v "http" then
      match nodesGet nodesById v with
      | some pubNode =>
        [("publisher",
          pyOr (get_value (some pubNode) "foaf:name" locale false)
            (pyOr (get_value (some pubNode) "skos:prefLabel" locale false)
              (get_value (some pubNode) "rdfs:label" locale false)))]
      | none => [("publisher", JVal.null), ("publisher_uri", JVal.s v)]
    else [("publisher", JVal.s v)]
  | .obj m =>
    [ ("publisher", get_value (some m) "foaf:name" locale false)
    , ("publisher_uri", get_value (some m) "@id" "en" false) ]
  | _ => [("publisher", JVal.null)]

/-- Membership of an atom in the `processed_dist_ids` set (line 878);
ids are strings (or numbers) in any graph that reaches this point. -/
def atomMem (x : JVal) : List JVal → Bool
  | [] => false
  | y :: t => jvalEqAtom x y || atomMem x t

/-- Per-distribution extraction (lines 880-937): duplicate-id skip,
field extraction, label resolution for format/mediaType URIs, `None`
removal, and the keep-if-identified filter. -/
def restDistStep (nodesById : List (String × Rec)) (locale : String)
    (acc : List JVal × List JVal) (distNode : Rec) : List JVal × List JVal :=
  let distId := getKeyD distNode "@id" JVal.null
  if pyTruthy distId && atomMem distId acc.2 then acc
  else
    let processed := if pyTruthy distId then acc.2 ++ [distId] else acc.2
    let distData : Rec :=
      [ ("uri", distId)
      , ("title", get_value (some distNode) "dct:title" locale false)
      , ("downloadURL", get_value (some distNode) "dcat:downloadURL" "en" false)
      , ("accessURL", get_value (some distNode) "dcat:accessURL" "en" false)
      , ("format", get_value (some distNode) "dct:format" "en" false)
      , ("mediaType", get_value (some distNode) "dcat:mediaType" "en" false)
      , ("byteSize", get_value (some distNode) "dcat:byteSize" "en" false)
      , ("modified", get_value (some distNode) "dct:modified" "en" false)
      , ("issued", get_value (some distNode) "dct:issued" "en" false)
      , ("license", get_value (some distNode) "dct:license" "en" false)
      , ("description", get_value (some distNode) "dct:description" locale false) ]
    let d1 :=
      match getKeyD distData "format" JVal.null with
      | .s fv =>
        if strStarts fv "http" then
          let fmtNode := nodesGet nodesById fv
          setKey distData "format_label"
            (pyOr (get_value fmtNode "skos:prefLabel" locale false)
              (get_value fmtNode "rdfs:label" locale false))
        else distData
      | _ => distData
    let d2 :=
      match getKeyD d1 "mediaType" JVal.null with
      | .s mv =>
        if strStarts mv "http" then
          let mtNode := nodesGet nodesById mv
          setKey d1 "mediaType_label"
            (pyOr (get_value mtNode "skos:prefLabel" locale false)
              (get_value mtNode "rdfs:label" locale false))
        else d1
      | _ => d1
    let cleaned := d2.filter (fun kv => !(isNull kv.2))
    if pyTruthy (getKeyD cleaned "uri" JVal.null)
        || pyTruthy (getKeyD cleaned "downloadURL" JVal.null)
        || pyTruthy (getKeyD cleaned "accessURL" JVal.null) then
      (acc.1 ++ [JVal.obj cleaned], processed)
    else (acc.1, processed)

/-- Outcome of the REST `requests.get` + `response.json()` pair. -/
inductive RestOutcome where
  | ok : JVal → RestOutcome
  | badJson : String → RestOutcome
  | reqFail : Option (Int × String) → String → RestOutcome

/-- Error message of lines 942-950. -/
def restFailMsg (excMsg : String) (resp : Option (Int × String)) : String :=
  let base := "REST API request failed: " ++ excMsg
  match resp with
  | none => base
  | some (st, body) =>
    base ++ " - Status Code: " ++ toString st ++ " - Response: " ++ pyTake body 500

/-- Lines 795-810 and 880-937: distribution references resolved into
fully extracted distribution objects. -/
def restDistList (nodesById : List (String × Rec)) (locale : String)
    (dsNode : Rec) : List JVal :=
  let distRefs :=
    match get_value (some dsNode) "dcat:distribution" "en" true with
    | .list l => l
    | _ => []
  ((resolveDistNodes nodesById distRefs).foldl
    (restDistStep nodesById locale) ([], [])).1

/-- Lines 812-937: the metadata dict as assembled before the final
cleanup, in insertion order. -/
def restMetadataRaw (nodesById : List (String × Rec))
    (datasetUri locale : String) (dsNode : Rec) : Rec :=
  [ ("uri", pyOr (getKeyD dsNode "@id" JVal.null) (JVal.s datasetUri))
  , ("title", get_value (some dsNode) "dct:title" locale false)
  , ("description", get_value (some dsNode) "dct:description" locale false)
  , ("modified", get_value (some dsNode) "dct:modified" "en" false)
  , ("issued", pyOr (get_value (some dsNode) "dct:issued" "en" false)
      (get_value (some dsNode) "dct:created" "en" false)) ]
  ++ restPublisherPairs nodesById locale dsNode
  ++ [ ("keywords", get_value (some dsNode) "dcat:keyword" locale true)
     , ("themes", get_value (some dsNode) "dcat:theme" "en" true)
     , ("languages", get_value (some dsNode) "dct:language" "en" true)
     , ("licenses", get_value (some dsNode) "dct:license" "en" true)
     , ("distributions", JVal.list (restDistList nodesById locale dsNode)) ]

/-- Line 940: strip `None` values and empty lists. -/
def restAssemble (nodesById : List (String × Rec))
    (datasetUri locale : String) (dsNode : Rec) : Rec :=
  (restMetadataRaw nodesById datasetUri locale dsNode).filter
    (fun kv => !(isNull kv.2) && !(isEmptyList kv.2))

/-- The graph nodes as dicts (all members are dicts at this point). -/
def restGraphNodes (nodeVals : List JVal) : List Rec :=
  nodeVals.filterMap (fun n => match n with | .obj m => some m | _ => none)

/-- Lines 758-937 given the list of graph nodes. -/
def restFromNodes (datasetUri locale uuid : String) (nodes : List Rec) : Rec :=
  if nodes.any hasUnhashableId then
    [("error", JVal.s "Failed to parse REST API JSON-LD response: TypeError")]
  else
    match (findDatasetNode nodes datasetUri uuid).orElse
        (fun _ => findAnyDatasetNode nodes) with
    | none =>
      [("error", JVal.s ("Could not find dcat:Dataset node in @graph for UUID " ++ uuid))]
    | some dsNode => restAssemble (buildNodesById nodes) datasetUri locale dsNode

/-- Model of `_get_metadata_from_rest_api`. -/
def get_metadata_from_rest_api (datasetUri locale : String)
    (outcome : RestOutcome) : Rec :=
  match extract_uuid_from_uri datasetUri with
  | none =>
    [("error", JVal.s ("Could not extract UUID from URI for REST API call: " ++ datasetUri))]
  | some uuid =>
    match outcome with
    | .reqFail resp excMsg => [("error", JVal.s (restFailMsg excMsg resp))]
    | .badJson excMsg =>
      [("error", JVal.s ("Failed to parse REST API JSON-LD response: " ++ excMsg))]
    | .ok body =>
      -- `json_ld_data.get("@graph")`; a non-dict body raises
      -- AttributeError, caught by the same parse-error handler
      match (match body with | .obj m => getKeyD m "@graph" JVal.null | _ => JVal.null) with
      | .list nodeVals =>
        if nodeVals.isEmpty then
          [("error", JVal.s "JSON-LD response missing or invalid @graph array")]
        else if nodeVals.any (fun n => match n with | .obj _ => false | _ => true) then
          -- non-dict graph node: AttributeError in the nodes_by_id comprehension
          [("error", JVal.s "Failed to parse REST API JSON-LD response: AttributeError")]
        else restFromNodes datasetUri locale uuid (restGraphNodes nodeVals)
      | _ => [("error", JVal.s "JSON-LD response missing or invalid @graph array")]

-- ### `EUDataTool.get_dataset_content`, distribution selection
-- (eu_data_tool.py lines 1283-1389)

/-- Coerce to the string Python's `.upper()`/`.lower()` is applied to;
every value reaching these sites in a real record is a string (a truthy
non-string would raise `AttributeError` in the source). -/
def asStrOr (v : JVal) : String :=
  match v with
  | .s t => t
  | _ => ""

/-- Model of `url_lower.split("?")[0].split("/")[-1]` (line 1322). -/
def lastUrlSegment (urlLower : String) : String :=
  ((pySplit ((pySplit urlLower '?').headD "") '/').getLastD "")

/-- The composite `matches_format` predicate (lines 1310-1361) for one
preferred token (already upper-cased) against one distribution. -/
def matchesFormat (fmtPref : String) (dist : Rec) : Bool :=
  let formatVal := getKeyD dist "format" JVal.null
  let formatLabel := getKeyD dist "format_label" JVal.null
  let mediaType := pyUpper (asStrOr (pyOr (getKeyD dist "mediaType" JVal.null) (JVal.s "")))
  let fsm := pyUpper (asStrOr (pyOr formatLabel (pyOr formatVal (JVal.s ""))))
  let targetUrl := asStrOr (pyOr (getKeyD dist "downloadURL" JVal.null)
    (getKeyD dist "accessURL" JVal.null))
  let urlLower := pyLower targetUrl
  let lastSeg := lastUrlSegment urlLower
  (fsm ≠ "" && strOccurs fmtPref fsm)
  || (mediaType ≠ ""
      && (pySplit mediaType '/').any (fun part => strOccurs ("/" ++ fmtPref) part))
  || ([ "." ++ pyLower fmtPref
      , "?format=" ++ pyLower fmtPref
      , "&format=" ++ pyLower fmtPref ].any (fun ext => strOccurs ext lastSeg))
  || (fmtPref = "RDF"
      && ["RDF", "XML", "TURTLE", "N3", "JSON-LD", "OWL"].any (fun r => strOccurs r fsm))
  || (fmtPref = "XML" && (strOccurs "XML" mediaType || strOccurs "XML" fsm))
  || (fmtPref = "JSON" && (strOccurs "JSON" mediaType || strOccurs "JSON" fsm))
  || (fmtPref = "CSV"
      && (strOccurs "CSV" mediaType || strOccurs "CSV" fsm
          || strOccurs "comma-separated" fsm))

/-- Distribution selection (lines 1284-1383): first preferred token,
first matching distribution with a URL; otherwise first distribution
with a URL; otherwise none.  Returns the chosen distribution and the
`selected_format_label` value. -/
def selectDistribution (preferredFormats : List String) (dists : List Rec) :
    Option (Rec × JVal) :=
  let normPreferred := preferredFormats.map pyUpper
  let fromPref := normPreferred.foldl (fun sel fmtPref =>
    match sel with
    | some _ => sel
    | none => dists.foldl (fun sel2 dist =>
        match sel2 with
        | some _ => sel2
        | none =>
          let targetUrl := pyOr (getKeyD dist "downloadURL" JVal.null)
            (getKeyD dist "accessURL" JVal.null)
          if !pyTruthy targetUrl then none
          else if matchesFormat fmtPref dist then
            some (dist, pyOr (getKeyD dist "format_label" JVal.null)
              (pyOr (getKeyD dist "format" JVal.null) (JVal.s fmtPref)))
          else none) none) none
  match fromPref with
  | some r => some r
  | none => dists.foldl (fun sel dist =>
      match sel with
      | some _ => sel
      | none =>
        if pyTruthy (pyOr (getKeyD dist "downloadURL" JVal.null)
            (getKeyD dist "accessURL" JVal.null)) then
          some (dist, pyOr (getKeyD dist "format_label" JVal.null)
            (getKeyD dist "format" (JVal.s "unknown")))
        else none) none

-- ### `EUDataTool.get_dataset_content`, content-cache check
-- (eu_data_tool.py lines 1391-1455)

/-- State of the `.content`/`.meta` file pair for the chosen download
URL: both present with a parseable sidecar, both-or-either present but
unparseable, or not both present. -/
inductive ContentRead where
  | absent : ContentRead
  | corruptMeta : ContentRead
  | metaFile : Rec → ContentRead

/-- The cache decision of lines 1397-1455.  Returns
`(serve_from_cache, corrupt_files_deleted)`: `serve_from_cache = true`
means the cached content is returned with no download; otherwise control
falls through to the download of lines 1457 ff. -/
def contentCacheDecision (cacheEnabled forceRefresh : Bool)
    (read : ContentRead) (currentModified : JVal) (now cacheTtl : Int) :
    Bool × Bool :=
  if cacheEnabled && !forceRefresh then
    match read with
    | .absent => (false, false)
    | .corruptMeta => (false, true)
    | .metaFile m =>
      let cacheTime : Int :=
        match lookupKey m "_cache_timestamp" with
        | some (JVal.num t) => t
        | _ => 0
      let cachedMod := getKeyD m "dataset_modified" JVal.null
      let isExpired := cacheTtl ≤ now - cacheTime
      let isStale := pyTruthy cachedMod && pyTruthy currentModified
        && !(jvalEqAtom cachedMod currentModified)
      if !isExpired && !isStale then (true, false) else (false, false)
  else (false, false)

-- ### `EUDataTool.get_distribution_formats` (eu_data_tool.py lines
-- 1215-1239).  The Python function calls `get_dataset_metadata` and
-- branches only on the returned record, so the model takes that record
-- as its argument.

def get_distribution_formats (metadata : Rec) : JVal :=
  if containsKey metadata "error" then JVal.list []
  else if !pyTruthy (getKeyD metadata "distributions" JVal.null) then JVal.list []
  else getKeyD metadata "distributions" (JVal.list [])

-- ### `EUDataTool` class constants and `__init__`
-- (eu_data_tool.py lines 22-56)

def DEFAULT_CACHE_TTL : Int := 86400

/-- Class constant (line 25): not a constructor parameter. -/
def REQUEST_TIMEOUT : Int := 120

/-- Class constant (line 26): seconds between requests. -/
def REQUEST_DELAY : Rat := 1 / 2

def defaultUserAgent : String :=
  "Mozilla/5.0 Windows NT 10.0; Win64; x64 AppleWebKit/537.36 KHTML, like Gecko Chrome/91.0.4472.124 Safari/537.36"

/-- Exactly the parameters of `EUDataTool.__init__` (lines 28-35). -/
structure EUDataToolArgs where
  user_agent : Option String
  cache_enabled : Bool
  cache_dir : String
  cache_ttl : Int
  preferred_formats : Option (List String)

/-- The per-instance configuration an `EUDataTool` object carries after
construction.  `requestTimeout` and `requestDelay` are what
`self.REQUEST_TIMEOUT` / `self.REQUEST_DELAY` resolve to on the
instance: the class constants, since `__init__` never sets instance
attributes of these names. -/
structure EUDataToolState where
  userAgent : String
  cacheEnabled : Bool
  cacheDir : String
  cacheTtl : Int
  preferredFormats : List String
  requestTimeout : Int
  requestDelay : Rat

/-- Model of `__init__` (lines 28-56; the `os.makedirs` side effect is outside
the state).  `user_agent or "Mozilla..."` and
`preferred_formats or ["CSV", ...]` use Python `or`, so falsy arguments
(`None`, `""`, `[]`) select the default. -/
def initEUDataTool (a : EUDataToolArgs) : EUDataToolState :=
  { userAgent :=
      match a.user_agent with
      | some u => if u ≠ "" then u else defaultUserAgent
      | none => defaultUserAgent
  , cacheEnabled := a.cache_enabled
  , cacheDir := a.cache_dir
  , cacheTtl := a.cache_ttl
  , preferredFormats :=
      match a.preferred_formats with
      | some l => if l ≠ [] then l else ["CSV", "JSON", "XML", "RDF"]
      | none => ["CSV", "JSON", "XML", "RDF"]
  , requestTimeout := REQUEST_TIMEOUT
  , requestDelay := REQUEST_DELAY }

-- ### `EUDataTool.clear_cache` (eu_data_tool.py lines 1587-1692)
-- The cache directory is a list of file names; deletion is modelled as
-- filtering (the source counts per-file `OSError`s but continues, and
-- the model's filesystem does not fail).

/-- Model of `clear_cache(dataset_uri)` on the names in the cache directory:
returns the files that remain. -/
def clear_cache_uri (files : List String) (datasetUri : String) : List String :=
  -- lines 1605-1618: the two metadata cache files
  let metaBase := sanitize_filename ("metadata_" ++ datasetUri)
  let metaTargets := [metaBase ++ "_rest_en" ++ ".json", metaBase ++ "_sparql" ++ ".json"]
  let afterMeta := files.filter (fun f => !(metaTargets.contains f))
  -- lines 1620-1656: SPARQL sub-query cache files by prefix match
  let sanitizedUri := sanitize_filename datasetUri
  let pfxsToClear :=
    [ "sparql_prop_" ++ sanitizedUri ++ "_"
    , "sparql_dist_" ++ sanitizedUri ]
    ++ (match extract_uuid_from_uri datasetUri with
        | some uuid =>
          let s88 := sanitize_filename ("http://data.europa.eu/88u/dataset/" ++ uuid)
          [ "sparql_prop_" ++ s88 ++ "_", "sparql_dist_" ++ s88 ]
        | none => [])
  afterMeta.filter (fun f =>
    !(pfxsToClear.any (fun p => strStarts f p && strEnds f ".json")))

/-- Model of `clear_cache()` with no argument (lines 1670-1692): unlink every
file in the cache directory. -/
def clear_cache_all (files : List String) : List String :=
  files.filter (fun _ => false)

-- ### Structural lemmas about the fallback record

/-- The keys that may legitimately hold an empty list in a fallback
record. -/
def allowedEmptyKeys : List String :=
  ["distributions", "keywords", "themes", "languages", "licenses"]

/-- Shape invariant of one fallback-record entry: only `publisher` may
be `None`, and only `distributions` or a multi-valued property may be an
empty list. -/
def entryOk (kv : String × JVal) : Prop :=
  (isNull kv.2 = true → kv.1 = "publisher")
  ∧ (isEmptyList kv.2 = true → kv.1 ∈ allowedEmptyKeys)

-- ### `distributions` is always a list in resolver outputs

/-- If the record holds a `distributions` key at all, its value is a
list. -/
def distributionsWellTyped (m : Rec) : Prop :=
  ∀ v, lookupKey m "distributions" = some v → ∃ l, v = JVal.list l

def c4ArgsA : EUDataToolArgs :=
  { user_agent := some "agentA", cache_enabled := true, cache_dir := "dirA"
  , cache_ttl := 10, preferred_formats := some ["XML"] }

def c4ArgsB : EUDataToolArgs :=
  { user_agent := some "agentB", cache_enabled := false, cache_dir := "dirB"
  , cache_ttl := 20, preferred_formats := some ["CSV"] }

def c6DistJson : Rec :=
  [("downloadURL", JVal.s "http://x.example/a"), ("mediaType", JVal.s "application/json")]

def c6DistCommaSeparated : Rec :=
  [("downloadURL", JVal.s "http://x.example/b"), ("format_label", JVal.s "Comma-separated values")]

/-- A fallback input in which every property sub-query and the
distribution sub-query returned an error result. -/
def allErrorsFallbackInput : FallbackInput :=
  { title := .err "HTTP 503", description := .err "HTTP 503"
  , publisherName := .err "HTTP 503", publisherUri := .err "HTTP 503"
  , modified := .err "HTTP 503", issued := .err "HTTP 503"
  , keywords := .err "HTTP 503", themes := .err "HTTP 503"
  , languages := .err "HTTP 503", licenses := .err "HTTP 503"
  , dist := .err "HTTP 503" }

/-- A successful fallback input: the title query returned one row,
every other query succeeded with an empty result set. -/
def titleOnlyFallbackInput : FallbackInput :=
  { title := .ok [[("value", "Example dataset")]], description := .ok []
  , publisherName := .ok [], publisherUri := .ok [], modified := .ok []
  , issued := .ok [], keywords := .ok [], themes := .ok []
  , languages := .ok [], licenses := .ok [], dist := .ok [] }

def c2RestUri : String := "http://data.europa.eu/88u/dataset/0a1b2c3d-4e5f-6071-8293-a4b5c6d7e8f9"

/-- A JSON-LD body whose graph holds one dataset node with a title and
no distributions. -/
def c2RestBody : JVal :=
  JVal.obj [("@graph", JVal.list
    [ JVal.obj [ ("@id", JVal.s c2RestUri)
               , ("@type", JVal.list [JVal.s "dcat:Dataset"])
               , ("dct:title", JVal.s "Example") ] ])]

def c3Uri : String := "https://example.org/ds1"

/-- A 32-hex-digit md5 digest as `hashlib.md5(...).hexdigest()` always
produces. -/
def c3Hash : String := "0123456789abcdef0123456789abcdef"

/-- The cache file written for the `title` property sub-query of
`c3Uri` (line 91-93 naming applied to the line 1079-1081 suffix). -/
def c3PropFile : String := sparqlCacheFileName c3Hash (propCacheSuffix c3Uri "title")

/-- The cache file written for the distribution sub-query of `c3Uri`. -/
def c3DistFile : String := sparqlCacheFileName c3Hash (distCacheSuffix c3Uri)

def c3RestMetaFile : String :=
  sanitize_filename ("metadata_" ++ c3Uri) ++ "_rest_en" ++ ".json"

def c3SparqlMetaFile : String :=
  sanitize_filename ("metadata_" ++ c3Uri) ++ "_sparql" ++ ".json"

def c3Files : List String :=
  [c3PropFile, c3DistFile, c3RestMetaFile, c3SparqlMetaFile, "unrelated.json"]

-- ### Theorems

-- ### Key/lookup lemmas used throughout

theorem lookupKey_setKey_self (r : Rec) (k : String) (v : JVal) :
    lookupKey (setKey r k v) k = some v := by
  induction r with
  | nil => simp [setKey, lookupKey]
  | cons kv t ih =>
    by_cases h : kv.1 = k
    · simp [setKey, lookupKey, h]
    · simp [setKey, lookupKey, h, ih]

theorem lookupKey_setKey_ne (r : Rec) (k k' : String) (v : JVal)
    (h : k' ≠ k) : lookupKey (setKey r k v) k' = lookupKey r k' := by
  induction r with
  | nil => simp [setKey, lookupKey, Ne.symm h]
  | cons kv t ih =>
    by_cases hk : kv.1 = k
    · simp [setKey, lookupKey, hk, Ne.symm h, h]
    · by_cases hk' : kv.1 = k'
      · simp [setKey, lookupKey, hk, hk', h]
      · simp [setKey, lookupKey, hk, hk', ih]

theorem lookupKey_popKey_ne (r : Rec) (k k' : String)
    (h : k' ≠ k) : lookupKey (popKey r k) k' = lookupKey r k' := by
  induction r with
  | nil => simp [popKey]
  | cons kv t ih =>
    by_cases hk : kv.1 = k
    · simp [popKey, lookupKey, hk, Ne.symm h, ih]
    · by_cases hk' : kv.1 = k'
      · simp [popKey, lookupKey, hk, hk', h]
      · simp [popKey, lookupKey, hk, hk', ih]

theorem containsKey_iff_lookupKey (r : Rec) (k : String) :
    containsKey r k = true ↔ (lookupKey r k).isSome := by
  induction r with
  | nil => simp [containsKey, lookupKey]
  | cons kv t ih =>
    by_cases hk : kv.1 = k
    · simp [containsKey, lookupKey, hk]
    · simp [containsKey, lookupKey, hk, ih]

theorem mem_setKey (r : Rec) (k : String) (v : JVal) (kv : String × JVal)
    (hmem : kv ∈ setKey r k v) : kv ∈ r ∨ kv = (k, v) := by
  induction r with
  | nil => simp [setKey] at hmem; simp [hmem]
  | cons hd t ih =>
    by_cases hk : hd.1 = k
    · simp only [setKey, if_pos hk, List.mem_cons] at hmem
      rcases hmem with h | h
      · exact Or.inr h
      · exact Or.inl (List.mem_cons_of_mem _ h)
    · simp only [setKey, if_neg hk, List.mem_cons] at hmem
      rcases hmem with h | h
      · exact Or.inl (h ▸ List.mem_cons_self _ _)
      · rcases ih h with h2 | h2
        · exact Or.inl (List.mem_cons_of_mem _ h2)
        · exact Or.inr h2

theorem mem_popKey (r : Rec) (k : String) (kv : String × JVal)
    (hmem : kv ∈ popKey r k) : kv ∈ r := by
  induction r with
  | nil => simp [popKey] at hmem
  | cons hd t ih =>
    by_cases hk : hd.1 = k
    · simp only [popKey, if_pos hk] at hmem
      exact List.mem_cons_of_mem _ (ih hmem)
    · simp only [popKey, if_neg hk, List.mem_cons] at hmem
      rcases hmem with h | h
      · exact h ▸ List.mem_cons_self _ _
      · exact List.mem_cons_of_mem _ (ih h)

theorem containsKey_setKey_self (r : Rec) (k : String) (v : JVal) :
    containsKey (setKey r k v) k = true := by
  rw [containsKey_iff_lookupKey, lookupKey_setKey_self]
  simp

theorem containsKey_setKey_of (r : Rec) (k k' : String) (v : JVal)
    (h : containsKey r k' = true) : containsKey (setKey r k v) k' = true := by
  by_cases hk : k' = k
  · subst hk; exact containsKey_setKey_self r k' v
  · rw [containsKey_iff_lookupKey] at h ⊢
    rw [lookupKey_setKey_ne _ _ _ _ hk]
    exact h

theorem containsKey_popKey_ne (r : Rec) (k k' : String)
    (h : k' ≠ k) : containsKey (popKey r k) k' = containsKey r k' := by
  rw [Bool.eq_iff_iff, containsKey_iff_lookupKey, containsKey_iff_lookupKey,
    lookupKey_popKey_ne _ _ _ h]

example : sanitize_filename "https://example.org/ds1" = "example.org_ds1" := by decide

example : sanitize_filename "metadata_https://example.org/ds1?x=1" = "metadata_example.org_ds1_x_1" := by decide

example : extract_uuid_from_uri "https://example.org/ds1" = none := by decide

example : extract_uuid_from_uri "http://data.europa.eu/88u/dataset/0a1b2c3d-4e5f-6071-8293-a4b5c6d7e8f9" = some "0a1b2c3d-4e5f-6071-8293-a4b5c6d7e8f9" := by decide

example : extract_uuid_from_uri "https://data.europa.eu/set/1234abcd-0000-1111-2222-333344445555/resource/x" = some "1234abcd-0000-1111-2222-333344445555" := by decide

theorem entryOk_s (k t : String) : entryOk (k, JVal.s t) := by
  constructor <;> intro h <;> simp [isNull, isEmptyList] at h

theorem pyTruthy_not_null (v : JVal) (h : pyTruthy v = true) :
    isNull v = false := by
  cases v <;> simp_all [pyTruthy, isNull]

theorem pyTruthy_not_emptyList (v : JVal) (h : pyTruthy v = true) :
    isEmptyList v = false := by
  cases v with
  | list l =>
    cases l with
    | nil => simp [pyTruthy] at h
    | cons a t => simp [isEmptyList]
  | null => simp [pyTruthy] at h
  | s t => simp [isEmptyList]
  | num n => simp [isEmptyList]
  | obj m => simp [isEmptyList]

theorem containsKey_setKey_ne (r : Rec) (k k' : String) (v : JVal)
    (h : k' ≠ k) :
    containsKey (setKey r k v) k' = containsKey r k' := by
  rw [Bool.eq_iff_iff, containsKey_iff_lookupKey, containsKey_iff_lookupKey,
    lookupKey_setKey_ne _ _ _ _ h]

theorem lookupKey_mem (r : Rec) (k : String) (v : JVal)
    (h : lookupKey r k = some v) : (k, v) ∈ r := by
  induction r with
  | nil => simp [lookupKey] at h
  | cons kv t ih =>
    by_cases hk : kv.1 = k
    · simp only [lookupKey, if_pos hk] at h
      have hv : kv.2 = v := by injection h
      have hkv : kv = (k, v) := by cases kv; simp_all
      rw [← hkv]
      exact List.mem_cons_self _ _
    · simp only [lookupKey, if_neg hk] at h
      exact List.mem_cons_of_mem _ (ih h)

/-- The property loop never creates or destroys a key that is neither a
property name nor one of their `error_` markers. -/
theorem propLoop_containsKey (props : List (String × Bool × QueryResult))
    (acc : Rec × List String) (k : String)
    (hk : ∀ p ∈ props, p.1 ≠ k ∧ ("error_" ++ p.1) ≠ k) :
    containsKey (props.foldl propStep acc).1 k = containsKey acc.1 k := by
  induction props generalizing acc with
  | nil => rfl
  | cons p ps ih =>
    rw [List.foldl_cons,
      ih _ (fun q hq => hk q (List.mem_cons_of_mem _ hq))]
    have hp := hk p (List.mem_cons_self _ _)
    unfold propStep
    cases hq : p.2.2 with
    | err e =>
      simp only
      exact containsKey_setKey_ne _ _ _ _ (Ne.symm hp.2)
    | ok bindings =>
      cases bindings with
      | nil => rfl
      | cons b0 bs =>
        simp only
        by_cases hm : p.2.1 = true
        · simp only [hm, if_true]
          exact containsKey_setKey_ne _ _ _ _ (Ne.symm hp.1)
        · rw [if_neg hm]
          cases rowGet b0 "value" with
          | some v =>
            simp only
            exact containsKey_setKey_ne _ _ _ _ (Ne.symm hp.1)
          | none => rfl

/-- Every entry the property loop adds satisfies `entryOk`, provided
every multi-valued property name is one of `allowedEmptyKeys`. -/
theorem propLoop_entryOk (props : List (String × Bool × QueryResult))
    (acc : Rec × List String)
    (hacc : ∀ kv ∈ acc.1, entryOk kv)
    (hmulti : ∀ p ∈ props, p.2.1 = true → p.1 ∈ allowedEmptyKeys) :
    ∀ kv ∈ (props.foldl propStep acc).1, entryOk kv := by
  induction props generalizing acc with
  | nil => exact hacc
  | cons p ps ih =>
    rw [List.foldl_cons]
    apply ih
    · intro kv hkv
      unfold propStep at hkv
      cases hq : p.2.2 with
      | err e =>
        rw [hq] at hkv
        simp only at hkv
        rcases mem_setKey _ _ _ _ hkv with hold | hnew
        · exact hacc kv hold
        · rw [hnew]; exact entryOk_s _ _
      | ok bindings =>
        rw [hq] at hkv
        cases bindings with
        | nil => exact hacc kv hkv
        | cons b0 bs =>
          simp only at hkv
          by_cases hm : p.2.1 = true
          · rw [if_pos hm] at hkv
            rcases mem_setKey _ _ _ _ hkv with hold | hnew
            · exact hacc kv hold
            · rw [hnew]
              refine ⟨fun h => by simp [isNull] at h, fun _ => ?_⟩
              exact hmulti p (List.mem_cons_self _ _) hm
          · rw [if_neg hm] at hkv
            cases hr : rowGet b0 "value" with
            | some v =>
              rw [hr] at hkv
              simp only at hkv
              rcases mem_setKey _ _ _ _ hkv with hold | hnew
              · exact hacc kv hold
              · rw [hnew]; exact entryOk_s _ _
            | none =>
              rw [hr] at hkv
              exact hacc kv hkv
    · exact fun q hq hb => hmulti q (List.mem_cons_of_mem _ hq) hb

theorem getKeyD_of_not_contains (r : Rec) (k : String) (d : JVal)
    (h : containsKey r k = false) : getKeyD r k d = d := by
  unfold getKeyD
  cases hl : lookupKey r k with
  | none => rfl
  | some v =>
    have : containsKey r k = true := by
      rw [containsKey_iff_lookupKey, hl]; rfl
    rw [this] at h
    cases h

theorem isEmptyList_pyOr_null (a : JVal) :
    isEmptyList (pyOr a JVal.null) = false := by
  unfold pyOr
  by_cases h : pyTruthy a = true
  · rw [if_pos h]; exact pyTruthy_not_emptyList a h
  · rw [if_neg h]; rfl

theorem propQueryList_not_error (inp : FallbackInput) :
    ∀ p ∈ propQueryList inp, p.1 ≠ "error" ∧ ("error_" ++ p.1) ≠ "error" := by
  intro p hp
  simp [propQueryList] at hp
  rcases hp with rfl | rfl | rfl | rfl | rfl | rfl | rfl | rfl | rfl | rfl <;>
    exact ⟨by simp, by simp⟩

theorem propQueryList_not_publisher (inp : FallbackInput) :
    ∀ p ∈ propQueryList inp, p.1 ≠ "publisher" ∧ ("error_" ++ p.1) ≠ "publisher" := by
  intro p hp
  simp [propQueryList] at hp
  rcases hp with rfl | rfl | rfl | rfl | rfl | rfl | rfl | rfl | rfl | rfl <;>
    exact ⟨by simp, by simp⟩

theorem propQueryList_not_dists (inp : FallbackInput) :
    ∀ p ∈ propQueryList inp,
      p.1 ≠ "distributions" ∧ ("error_" ++ p.1) ≠ "distributions" := by
  intro p hp
  simp [propQueryList] at hp
  rcases hp with rfl | rfl | rfl | rfl | rfl | rfl | rfl | rfl | rfl | rfl <;>
    exact ⟨by simp, by simp⟩

theorem propQueryList_multi (inp : FallbackInput) :
    ∀ p ∈ propQueryList inp, p.2.1 = true → p.1 ∈ allowedEmptyKeys := by
  intro p hp
  simp [propQueryList] at hp
  rcases hp with rfl | rfl | rfl | rfl | rfl | rfl | rfl | rfl | rfl | rfl <;>
    intro h <;> simp_all [allowedEmptyKeys]

theorem fallbackAfterProps_entryOk (uri : String) (inp : FallbackInput) :
    ∀ kv ∈ (fallbackAfterProps uri inp).1, entryOk kv := by
  apply propLoop_entryOk
  · intro kv hkv
    simp at hkv
    rcases hkv with rfl | rfl <;> exact entryOk_s _ _
  · exact propQueryList_multi inp

theorem fallbackAfterProps_no_publisher (uri : String) (inp : FallbackInput) :
    containsKey (fallbackAfterProps uri inp).1 "publisher" = false := by
  unfold fallbackAfterProps
  rw [propLoop_containsKey _ _ _ (propQueryList_not_publisher inp)]
  rfl

theorem fallbackAfterProps_no_error (uri : String) (inp : FallbackInput) :
    containsKey (fallbackAfterProps uri inp).1 "error" = false := by
  unfold fallbackAfterProps
  rw [propLoop_containsKey _ _ _ (propQueryList_not_error inp)]
  rfl

theorem fallbackPublisherFix_entryOk (m1 : Rec)
    (hm : ∀ kv ∈ m1, entryOk kv)
    (hpub : containsKey m1 "publisher" = false) :
    ∀ kv ∈ fallbackPublisherFix m1, entryOk kv := by
  intro kv hkv
  have hpub2 : containsKey (popKey m1 "publisherName") "publisher" = false := by
    rw [containsKey_popKey_ne _ _ _ (by decide)]
    exact hpub
  have hm3 : ∀ kv ∈ setKey (popKey m1 "publisherName") "publisher"
      (pyOr (getKeyD m1 "publisherName" JVal.null)
        (getKeyD (popKey m1 "publisherName") "publisher" JVal.null)), entryOk kv := by
    intro kv2 hkv2
    rcases mem_setKey _ _ _ _ hkv2 with hold | hnew
    · exact hm kv2 (mem_popKey _ _ _ hold)
    · rw [hnew]
      refine ⟨fun _ => rfl, fun h => ?_⟩
      rw [getKeyD_of_not_contains _ _ _ hpub2, isEmptyList_pyOr_null] at h
      cases h
  unfold fallbackPublisherFix at hkv
  simp only at hkv
  split at hkv
  · next hcond =>
    rcases mem_setKey _ _ _ _ hkv with hold | hnew
    · exact hm3 kv (mem_popKey _ _ _ hold)
    · rw [hnew]
      have htr : pyTruthy (getKeyD (setKey (popKey m1 "publisherName") "publisher"
          (pyOr (getKeyD m1 "publisherName" JVal.null)
            (getKeyD (popKey m1 "publisherName") "publisher" JVal.null)))
          "publisherUri" JVal.null) = true := by
        simp only [Bool.and_eq_true] at hcond
        exact hcond.2
      constructor
      · intro h
        rw [pyTruthy_not_null _ htr] at h
        cases h
      · intro h
        rw [pyTruthy_not_emptyList _ htr] at h
        cases h
  · exact hm3 kv (mem_popKey _ _ _ hkv)

theorem fallbackPublisherFix_contains_publisher (m1 : Rec) :
    containsKey (fallbackPublisherFix m1) "publisher" = true := by
  unfold fallbackPublisherFix
  simp only
  split
  · apply containsKey_setKey_of
    rw [containsKey_popKey_ne _ _ _ (by decide)]
    exact containsKey_setKey_self _ _ _
  · rw [containsKey_popKey_ne _ _ _ (by decide)]
    exact containsKey_setKey_self _ _ _

theorem fallbackPublisherFix_containsKey_ne (m1 : Rec) (k : String)
    (h1 : k ≠ "publisher") (h2 : k ≠ "publisher_uri")
    (h3 : k ≠ "publisherName") (h4 : k ≠ "publisherUri") :
    containsKey (fallbackPublisherFix m1) k = containsKey m1 k := by
  unfold fallbackPublisherFix
  simp only
  split
  · rw [containsKey_setKey_ne _ _ _ _ h2, containsKey_popKey_ne _ _ _ h4,
      containsKey_setKey_ne _ _ _ _ h1, containsKey_popKey_ne _ _ _ h3]
  · rw [containsKey_popKey_ne _ _ _ h4, containsKey_setKey_ne _ _ _ _ h1,
      containsKey_popKey_ne _ _ _ h3]

theorem fallbackWithDists_entryOk (m4 : Rec) (errs : List String)
    (dq : QueryResult) (hm : ∀ kv ∈ m4, entryOk kv) :
    ∀ kv ∈ (fallbackWithDists m4 errs dq).1, entryOk kv := by
  intro kv hkv
  have hlist : ∀ l : List JVal, entryOk ("distributions", JVal.list l) := by
    intro l
    exact ⟨fun h => by simp [isNull] at h, fun _ => by simp [allowedEmptyKeys]⟩
  unfold fallbackWithDists at hkv
  cases dq with
  | err e =>
    simp only at hkv
    rcases mem_setKey _ _ _ _ hkv with hold | hnew
    · rcases mem_setKey _ _ _ _ hold with h2 | h2
      · exact hm kv h2
      · rw [h2]; exact hlist []
    · rw [hnew]; exact entryOk_s _ _
  | ok rows =>
    simp only at hkv
    rcases mem_setKey _ _ _ _ hkv with hold | hnew
    · rcases mem_setKey _ _ _ _ hold with h2 | h2
      · exact hm kv h2
      · rw [h2]; exact hlist []
    · rw [hnew]; exact hlist _

theorem fallbackWithDists_contains_dists (m4 : Rec) (errs : List String)
    (dq : QueryResult) :
    containsKey (fallbackWithDists m4 errs dq).1 "distributions" = true := by
  unfold fallbackWithDists
  cases dq with
  | err e =>
    simp only
    apply containsKey_setKey_of
    exact containsKey_setKey_self _ _ _
  | ok rows =>
    simp only
    exact containsKey_setKey_self _ _ _

theorem fallbackWithDists_containsKey_ne (m4 : Rec) (errs : List String)
    (dq : QueryResult) (k : String)
    (h1 : k ≠ "distributions") (h2 : k ≠ "error_distributions") :
    containsKey (fallbackWithDists m4 errs dq).1 k = containsKey m4 k := by
  unfold fallbackWithDists
  cases dq with
  | err e =>
    simp only
    rw [containsKey_setKey_ne _ _ _ _ h2, containsKey_setKey_ne _ _ _ _ h1]
  | ok rows =>
    simp only
    rw [containsKey_setKey_ne _ _ _ _ h1, containsKey_setKey_ne _ _ _ _ h1]

theorem fallbackWithDists_lookup_dists (m4 : Rec) (errs : List String)
    (dq : QueryResult) :
    ∃ l, lookupKey (fallbackWithDists m4 errs dq).1 "distributions"
      = some (JVal.list l) := by
  unfold fallbackWithDists
  cases dq with
  | err e =>
    refine ⟨[], ?_⟩
    simp only
    rw [lookupKey_setKey_ne _ _ _ _ (by decide)]
    exact lookupKey_setKey_self _ _ _
  | ok rows =>
    exact ⟨_, lookupKey_setKey_self _ _ _⟩

theorem fallbackCore_entryOk (uri : String) (inp : FallbackInput) :
    ∀ kv ∈ (fallbackCore uri inp).1, entryOk kv := by
  unfold fallbackCore
  simp only
  apply fallbackWithDists_entryOk
  apply fallbackPublisherFix_entryOk
  · exact fallbackAfterProps_entryOk uri inp
  · exact fallbackAfterProps_no_publisher uri inp

theorem fallbackCore_contains_publisher (uri : String) (inp : FallbackInput) :
    containsKey (fallbackCore uri inp).1 "publisher" = true := by
  unfold fallbackCore
  simp only
  rw [fallbackWithDists_containsKey_ne _ _ _ _ (by decide) (by decide)]
  exact fallbackPublisherFix_contains_publisher _

theorem fallbackCore_no_error (uri : String) (inp : FallbackInput) :
    containsKey (fallbackCore uri inp).1 "error" = false := by
  unfold fallbackCore
  simp only
  rw [fallbackWithDists_containsKey_ne _ _ _ _ (by decide) (by decide),
    fallbackPublisherFix_containsKey_ne _ _ (by decide) (by decide) (by decide) (by decide)]
  exact fallbackAfterProps_no_error uri inp

theorem fallbackCore_contains_dists (uri : String) (inp : FallbackInput) :
    containsKey (fallbackCore uri inp).1 "distributions" = true := by
  unfold fallbackCore
  simp only
  exact fallbackWithDists_contains_dists _ _ _

theorem fallbackCore_lookup_dists (uri : String) (inp : FallbackInput) :
    ∃ l, lookupKey (fallbackCore uri inp).1 "distributions"
      = some (JVal.list l) := by
  unfold fallbackCore
  simp only
  exact fallbackWithDists_lookup_dists _ _ _

/-- The consolidated-error branch of lines 1198-1206 is unreachable:
`metadata["publisher"]` is always present after line 1116, so
`core_data_found` is always true and the fallback always returns the
(possibly partial) metadata record. -/
theorem get_metadata_from_sparql_fallback_eq (uri : String) (inp : FallbackInput) :
    get_metadata_from_sparql_fallback uri inp
      = (if ((fallbackCore uri inp).2).isEmpty then (fallbackCore uri inp).1
         else setKey (fallbackCore uri inp).1 "sparql_errors"
           (JVal.list (((fallbackCore uri inp).2).map JVal.s))) := by
  unfold get_metadata_from_sparql_fallback
  simp only
  have hcore : coreDataKeys.any (fun k => containsKey (fallbackCore uri inp).1 k) = true :=
    List.any_eq_true.mpr ⟨"publisher", by decide, fallbackCore_contains_publisher uri inp⟩
  rw [hcore]
  by_cases he : ((fallbackCore uri inp).2).isEmpty
  · simp [he]
  · simp [he]

-- ### Structural lemmas about the REST record

theorem restAssemble_clean (nodesById : List (String × Rec))
    (datasetUri locale : String) (dsNode : Rec) :
    ∀ kv ∈ restAssemble nodesById datasetUri locale dsNode,
      isNull kv.2 = false ∧ isEmptyList kv.2 = false := by
  intro kv hkv
  unfold restAssemble at hkv
  have h := (List.mem_filter.mp hkv).2
  simp only [Bool.and_eq_true, Bool.not_eq_true'] at h
  exact h

theorem restFromNodes_clean (datasetUri locale uuid : String)
    (nodes : List Rec) :
    ∀ kv ∈ restFromNodes datasetUri locale uuid nodes,
      isNull kv.2 = false ∧ isEmptyList kv.2 = false := by
  intro kv hkv
  unfold restFromNodes at hkv
  split at hkv
  · simp at hkv; rw [hkv]; exact ⟨rfl, rfl⟩
  · split at hkv
    · simp at hkv; rw [hkv]; exact ⟨rfl, rfl⟩
    · exact restAssemble_clean _ _ _ _ kv hkv

theorem rest_entries_clean (datasetUri locale : String) (outcome : RestOutcome) :
    ∀ kv ∈ get_metadata_from_rest_api datasetUri locale outcome,
      isNull kv.2 = false ∧ isEmptyList kv.2 = false := by
  intro kv hkv
  unfold get_metadata_from_rest_api at hkv
  split at hkv
  · simp at hkv; rw [hkv]; exact ⟨rfl, rfl⟩
  · split at hkv
    · simp at hkv; rw [hkv]; exact ⟨rfl, rfl⟩
    · simp at hkv; rw [hkv]; exact ⟨rfl, rfl⟩
    · split at hkv
      · split at hkv
        · simp at hkv; rw [hkv]; exact ⟨rfl, rfl⟩
        · split at hkv
          · simp at hkv; rw [hkv]; exact ⟨rfl, rfl⟩
          · exact restFromNodes_clean _ _ _ _ kv hkv
      · simp at hkv; rw [hkv]; exact ⟨rfl, rfl⟩

theorem restPublisherPairs_keys (nodesById : List (String × Rec))
    (locale : String) (dsNode : Rec) :
    ∀ kv ∈ restPublisherPairs nodesById locale dsNode,
      kv.1 = "publisher" ∨ kv.1 = "publisher_uri" := by
  intro kv hkv
  unfold restPublisherPairs at hkv
  split at hkv
  · split at hkv
    · split at hkv
      · simp at hkv; rw [hkv]; left; rfl
      · simp at hkv
        rcases hkv with h | h <;> rw [h]
        · left; rfl
        · right; rfl
    · simp at hkv; rw [hkv]; left; rfl
  · simp at hkv
    rcases hkv with h | h <;> rw [h]
    · left; rfl
    · right; rfl
  · simp at hkv; rw [hkv]; left; rfl

/-- In the raw REST record, the only entry keyed `distributions` holds
the extracted distribution list. -/
theorem restMetadataRaw_dists (nodesById : List (String × Rec))
    (datasetUri locale : String) (dsNode : Rec) :
    ∀ kv ∈ restMetadataRaw nodesById datasetUri locale dsNode,
      kv.1 = "distributions" →
      kv.2 = JVal.list (restDistList nodesById locale dsNode) := by
  intro kv hkv hk
  unfold restMetadataRaw at hkv
  simp only [List.cons_append, List.nil_append, List.mem_cons, List.mem_append] at hkv
  rcases hkv with rfl | rfl | rfl | rfl | rfl | hkv
  · simp at hk
  · simp at hk
  · simp at hk
  · simp at hk
  · simp at hk
  rcases hkv with hpub | hkv
  · rcases restPublisherPairs_keys _ _ _ kv hpub with h | h <;> rw [hk] at h <;> simp at h
  simp only [List.mem_cons, List.not_mem_nil] at hkv
  rcases hkv with rfl | rfl | rfl | rfl | rfl | hfalse
  · simp at hk
  · simp at hk
  · simp at hk
  · simp at hk
  · rfl
  · cases hfalse

-- ### Cache filesystem lemmas

theorem fsLookup_fsRemove_self (fs : FS) (k : String) :
    fsLookup (fsRemove fs k) k = none := by
  induction fs with
  | nil => rfl
  | cons kv t ih =>
    by_cases hk : kv.1 = k
    · simp [fsRemove, hk, ih]
    · simp [fsRemove, fsLookup, hk, ih]

theorem fsLookup_append_right (l : FS) (k : String) (v : CacheFile)
    (h : fsLookup l k = none) : fsLookup (l ++ [(k, v)]) k = some v := by
  induction l with
  | nil => simp [fsLookup]
  | cons kv t ih =>
    by_cases hk : kv.1 = k
    · simp [fsLookup, hk] at h
    · simp only [fsLookup, hk] at h
      simp only [List.cons_append, fsLookup, if_neg hk]
      exact ih h

theorem fsLookup_fsWrite_self (fs : FS) (k : String) (v : CacheFile) :
    fsLookup (fsWrite fs k v) k = some v := by
  unfold fsWrite
  exact fsLookup_append_right _ _ _ (fsLookup_fsRemove_self fs k)

theorem fallback_distributionsWellTyped (uri : String) (inp : FallbackInput) :
    distributionsWellTyped (get_metadata_from_sparql_fallback uri inp) := by
  intro v hv
  rw [get_metadata_from_sparql_fallback_eq] at hv
  rcases fallbackCore_lookup_dists uri inp with ⟨l, hl⟩
  by_cases he : ((fallbackCore uri inp).2).isEmpty
  · rw [if_pos he, hl] at hv
    exact ⟨l, by injection hv with h; rw [← h]⟩
  · rw [if_neg he, lookupKey_setKey_ne _ _ _ _ (by decide), hl] at hv
    exact ⟨l, by injection hv with h; rw [← h]⟩

theorem restAssemble_distributionsWellTyped (nodesById : List (String × Rec))
    (datasetUri locale : String) (dsNode : Rec) :
    distributionsWellTyped (restAssemble nodesById datasetUri locale dsNode) := by
  intro v hv
  have hmem := lookupKey_mem _ _ _ hv
  unfold restAssemble at hmem
  have hraw := (List.mem_filter.mp hmem).1
  exact ⟨_, restMetadataRaw_dists _ _ _ _ _ hraw rfl⟩

theorem rest_distributionsWellTyped (datasetUri locale : String)
    (outcome : RestOutcome) :
    distributionsWellTyped (get_metadata_from_rest_api datasetUri locale outcome) := by
  intro v hv
  unfold get_metadata_from_rest_api at hv
  split at hv
  · simp [lookupKey] at hv
  · split at hv
    · simp [lookupKey] at hv
    · simp [lookupKey] at hv
    · split at hv
      · split at hv
        · simp [lookupKey] at hv
        · split at hv
          · simp [lookupKey] at hv
          · unfold restFromNodes at hv
            split at hv
            · simp [lookupKey] at hv
            · split at hv
              · simp [lookupKey] at hv
              · exact restAssemble_distributionsWellTyped _ _ _ _ v hv
      · simp [lookupKey] at hv

-- ### Claim theorems

/-- C10: `_sanitize_filename` returns a string of length at most 150
whose characters are all alphanumeric or one of `_`, `-`, `.`; equal
inputs yield equal outputs. -/
theorem c10_sanitize_filename_safe (u : String) :
    (sanitize_filename u).data.length ≤ 150
    ∧ (∀ c ∈ (sanitize_filename u).data,
        c.isAlphanum = true ∨ c = '_' ∨ c = '-' ∨ c = '.')
    ∧ (∀ v : String, u = v → sanitize_filename u = sanitize_filename v) := by
  refine ⟨?_, ?_, fun v hv => hv ▸ rfl⟩
  · show (List.take 150 _).length ≤ 150
    rw [List.length_take]
    exact min_le_left _ _
  · intro c hc
    have hkept : c ∈ List.filter
        (fun c => c.isAlphanum || c = '_' || c = '-' || c = '.') _ :=
      List.mem_of_mem_take hc
    have hpred := (List.mem_filter.mp hkept).2
    simp only [Bool.or_eq_true, decide_eq_true_eq] at hpred
    rcases hpred with ((h | h) | h) | h
    · exact Or.inl h
    · exact Or.inr (Or.inl h)
    · exact Or.inr (Or.inr (Or.inl h))
    · exact Or.inr (Or.inr (Or.inr h))

/-- C10 witness: the properties evaluated at a concrete input. -/
theorem c10_sanitize_filename_safe_witness :
    ('e'.isAlphanum = true ∨ 'e' = '_' ∨ 'e' = '-' ∨ 'e' = '.')
    ∧ sanitize_filename "https://example.org/ds1" = "example.org_ds1"
    ∧ (sanitize_filename "https://example.org/ds1").data.length ≤ 150 :=
  ⟨(c10_sanitize_filename_safe "https://example.org/ds1").2.1 'e' (by decide),
   by decide, (c10_sanitize_filename_safe "https://example.org/ds1").1⟩

/-- C4 counterexample: two instances constructed with different
values of every constructor parameter still share the same request
timeout and inter-request delay — there is no constructor parameter for
either, contradicting the claim that they are construction-time
configurable. -/
theorem c4_counterexample_timeout_delay_not_constructor_params :
    c4ArgsA.user_agent ≠ c4ArgsB.user_agent
    ∧ c4ArgsA.cache_enabled ≠ c4ArgsB.cache_enabled
    ∧ c4ArgsA.cache_dir ≠ c4ArgsB.cache_dir
    ∧ c4ArgsA.cache_ttl ≠ c4ArgsB.cache_ttl
    ∧ c4ArgsA.preferred_formats ≠ c4ArgsB.preferred_formats
    ∧ (initEUDataTool c4ArgsA).requestTimeout = (initEUDataTool c4ArgsB).requestTimeout
    ∧ (initEUDataTool c4ArgsA).requestDelay = (initEUDataTool c4ArgsB).requestDelay :=
  ⟨by decide, by decide, by decide, by decide, by decide, rfl, rfl⟩

/-- C4 (amended): cache enabled/disabled, cache directory, cache
TTL, user agent and preferred formats are per-instance constructor
parameters honoured by the constructed state; request timeout and
inter-request delay are the class constants `REQUEST_TIMEOUT = 120` and
`REQUEST_DELAY = 0.5` on every instance. -/
theorem c4_configuration_surface (a : EUDataToolArgs) :
    (initEUDataTool a).cacheEnabled = a.cache_enabled
    ∧ (initEUDataTool a).cacheDir = a.cache_dir
    ∧ (initEUDataTool a).cacheTtl = a.cache_ttl
    ∧ (∀ u, a.user_agent = some u → u ≠ "" → (initEUDataTool a).userAgent = u)
    ∧ (∀ l, a.preferred_formats = some l → l ≠ [] →
        (initEUDataTool a).preferredFormats = l)
    ∧ (initEUDataTool a).requestTimeout = REQUEST_TIMEOUT
    ∧ (initEUDataTool a).requestDelay = REQUEST_DELAY := by
  refine ⟨rfl, rfl, rfl, ?_, ?_, rfl, rfl⟩
  · intro u hu hne
    simp [initEUDataTool, hu, hne]
  · intro l hl hne
    simp [initEUDataTool, hl, hne]

/-- C4 witness. -/
theorem c4_configuration_surface_witness :
    (initEUDataTool c4ArgsA).userAgent = "agentA"
    ∧ (initEUDataTool c4ArgsA).preferredFormats = ["XML"]
    ∧ (initEUDataTool c4ArgsA).cacheTtl = 10 :=
  ⟨(c4_configuration_surface c4ArgsA).2.2.2.1 "agentA" rfl (by decide),
   (c4_configuration_surface c4ArgsA).2.2.2.2.1 ["XML"] rfl (by decide),
   (c4_configuration_surface c4ArgsA).2.2.1⟩

theorem toUpper_ne_c (c : Char) : Char.toUpper c ≠ 'c' := by
  simp only [Char.toUpper]
  split
  · next h =>
    intro heq
    have h2 := congrArg Char.toNat heq
    rw [show Char.toNat 'c' = 99 from rfl] at h2
    have hval : Char.isValidCharNat (c.toNat - 32) := by
      left
      omega
    rw [Char.ofNat, dif_pos hval] at h2
    simp only [Char.ofNatAux, Char.toNat, UInt32.ofNat', UInt32.toNat, Fin.ofNat',
      BitVec.toNat_ofNatLt] at h2
    simp only [Char.toNat, UInt32.toNat] at h
    omega
  · next h =>
    intro heq
    rw [heq] at h
    exact h (by decide)

/-- The needle `comma-separated` can never occur in an upper-cased
string: its first character is a lower-case `c`, which `str.upper` never
produces. -/
theorem occursList_comma_map_upper (l : List Char) :
    occursList "comma-separated".data (l.map Char.toUpper) = false := by
  induction l with
  | nil => rfl
  | cons c cs ih =>
    simp only [List.map_cons, occursList, ih, Bool.or_false]
    have hfst : ('c' == Char.toUpper c) = false :=
      beq_eq_false_iff_ne.mpr (fun hh => toUpper_ne_c c hh.symm)
    simp [List.isPrefixOf, hfst]

/-- C6: the `comma-separated` synonym clause of the CSV preference
is dead code.  `format_string_for_match` is upper-cased (line 1305)
while the needle `"comma-separated"` is lower case (line 1358), so the
substring test never succeeds: a distribution labelled
`Comma-separated values` does not match the CSV preference, and with
preferred order `["CSV", "JSON"]` the JSON distribution is selected
instead. -/
theorem c6_comma_separated_clause_dead :
    matchesFormat "CSV" c6DistCommaSeparated = false
    ∧ (selectDistribution ["CSV", "JSON"] [c6DistJson, c6DistCommaSeparated]).map
        Prod.fst = some c6DistJson
    ∧ (∀ hay : String, strOccurs "comma-separated" (pyUpper hay) = false) := by
  refine ⟨by decide, rfl, ?_⟩
  intro hay
  exact occursList_comma_map_upper hay.data

/-- C5 counterexample: a transport failure whose exception carries
no response object (`e.response is None`, e.g. a connection timeout)
produces an error result that contains no status code and no body
snippet — only the exception text — contradicting the claim that every
transport-failure error result carries the status code and a snippet. -/
theorem c5_counterexample_no_status_without_response :
    (execute_sparql_query false 86400 0 [] "p" "query" false
        (HttpOutcome.reqFail none "connection timed out")).1
      = sparqlErrorRecord "SPARQL query failed (query): connection timed out"
    ∧ strOccurs "Status Code" "SPARQL query failed (query): connection timed out" = false
    ∧ strOccurs "Response" "SPARQL query failed (query): connection timed out" = false :=
  ⟨rfl, by decide, by decide⟩

/-- C5 (amended): `_execute_sparql_query` never raises past its
boundary; on a request failure with an attached response (every non-2xx
status in particular) the error result carries the status code and a
body snippet truncated to at most 500 characters; on a request failure
without a response it carries the exception text only; on a malformed
JSON response the same error-record shape is returned.  Every failure
record consists of the error message and an empty bindings sequence. -/
theorem c5_execute_sparql_query_error_contract (cacheEnabled : Bool)
    (now : Int) (fs : FS) (path suffix : String) :
    (∀ (st : Int) (body excMsg : String),
      sparqlFetch cacheEnabled now fs path suffix
          (HttpOutcome.reqFail (some (st, body)) excMsg)
        = (sparqlErrorRecord ("SPARQL query failed (" ++ suffix ++ "): " ++ excMsg
            ++ " - Status Code: " ++ toString st ++ " - Response: " ++ pyTake body 500), fs)
      ∧ (pyTake body 500).data.length ≤ 500)
    ∧ (∀ excMsg : String,
        sparqlFetch cacheEnabled now fs path suffix (HttpOutcome.reqFail none excMsg)
          = (sparqlErrorRecord ("SPARQL query failed (" ++ suffix ++ "): " ++ excMsg), fs))
    ∧ (∀ excMsg : String,
        sparqlFetch cacheEnabled now fs path suffix (HttpOutcome.badJson excMsg)
          = (sparqlErrorRecord ("Failed to decode SPARQL JSON response (" ++ suffix
              ++ "): " ++ excMsg), fs))
    ∧ (∀ msg : String, sparqlErrorRecord msg
        = [("error", JVal.s msg), ("results", JVal.obj [("bindings", JVal.list [])])]) := by
  refine ⟨fun st body excMsg => ⟨rfl, ?_⟩, fun _ => rfl, fun _ => rfl, fun _ => rfl⟩
  show (List.take 500 _).length ≤ 500
  rw [List.length_take]
  exact min_le_left _ _

/-- C7: a corrupt cache file is deleted on lookup and the lookup is
treated as a miss: the whole call behaves exactly as if the file were
absent, the corrupt entry is gone from the resulting cache state, a
fresh successful fetch returns its payload, and the content-cache path
(lines 1445-1455) likewise deletes the corrupt pair and falls through to
the download. -/
theorem c7_cache_corruption_selfheal (ttl now : Int) (fs : FS)
    (path suffix : String) (outcome : HttpOutcome)
    (h : fsLookup fs path = some CacheFile.corrupt) :
    execute_sparql_query true ttl now fs path suffix false outcome
      = execute_sparql_query true ttl now (fsRemove fs path) path suffix false outcome
    ∧ fsLookup (execute_sparql_query true ttl now fs path suffix false outcome).2 path
        ≠ some CacheFile.corrupt
    ∧ (∀ results : Rec, outcome = HttpOutcome.ok results →
        (execute_sparql_query true ttl now fs path suffix false outcome).1 = results)
    ∧ (∀ (currentModified : JVal) (now2 ttl2 : Int),
        contentCacheDecision true false ContentRead.corruptMeta currentModified now2 ttl2
          = (false, true)) := by
  have e1 : execute_sparql_query true ttl now fs path suffix false outcome
      = sparqlFetch true now (fsRemove fs path) path suffix outcome := by
    unfold execute_sparql_query
    rw [h]
    rfl
  have e2 : execute_sparql_query true ttl now (fsRemove fs path) path suffix false outcome
      = sparqlFetch true now (fsRemove fs path) path suffix outcome := by
    unfold execute_sparql_query
    rw [fsLookup_fsRemove_self]
    rfl
  refine ⟨e1.trans e2.symm, ?_, ?_, fun _ _ _ => rfl⟩
  · rw [e1]
    cases outcome with
    | ok results =>
      simp only [sparqlFetch, if_true]
      rw [fsLookup_fsWrite_self]
      simp
    | badJson m =>
      simp only [sparqlFetch]
      rw [fsLookup_fsRemove_self]
      simp
    | reqFail a b =>
      simp only [sparqlFetch]
      rw [fsLookup_fsRemove_self]
      simp
  · intro results hout
    rw [e1, hout]
    rfl

/-- C7 witness. -/
theorem c7_cache_corruption_selfheal_witness :
    (execute_sparql_query true 10 5 [("p", CacheFile.corrupt)] "p" "q" false
        (HttpOutcome.ok [("x", JVal.num 1)])).1 = [("x", JVal.num 1)] :=
  (c7_cache_corruption_selfheal 10 5 [("p", CacheFile.corrupt)] "p" "q"
    (HttpOutcome.ok [("x", JVal.num 1)]) rfl).2.2.1 [("x", JVal.num 1)] rfl

/-- C8: within the TTL, a content cache entry whose recorded
`dataset_modified` differs from the current metadata `modified` (both
present) is treated as stale and control falls through to the download;
with an unchanged timestamp the cached content is served with no
download. -/
theorem c8_content_staleness (m : Rec) (a b : String) (ts now ttl : Int)
    (hts : lookupKey m "_cache_timestamp" = some (JVal.num ts))
    (hmod : lookupKey m "dataset_modified" = some (JVal.s a))
    (ha : a ≠ "") (hb : b ≠ "") (httl : now - ts < ttl) :
    (a ≠ b →
      contentCacheDecision true false (ContentRead.metaFile m) (JVal.s b) now ttl
        = (false, false))
    ∧ (a = b →
      contentCacheDecision true false (ContentRead.metaFile m) (JVal.s b) now ttl
        = (true, false)) := by
  have hexp : ¬ ttl ≤ now - ts := not_le.mpr httl
  constructor <;> intro hab <;>
    simp [contentCacheDecision, getKeyD, hts, hmod, hexp, pyTruthy, ha, hb,
      jvalEqAtom, hab]

/-- C8 witness. -/
theorem c8_content_staleness_witness :
    contentCacheDecision true false
      (ContentRead.metaFile
        [("_cache_timestamp", JVal.num 0), ("dataset_modified", JVal.s "2024-01-01")])
      (JVal.s "2024-06-01") 1 10 = (false, false)
    ∧ contentCacheDecision true false
      (ContentRead.metaFile
        [("_cache_timestamp", JVal.num 0), ("dataset_modified", JVal.s "2024-01-01")])
      (JVal.s "2024-01-01") 1 10 = (true, false) :=
  ⟨(c8_content_staleness
      [("_cache_timestamp", JVal.num 0), ("dataset_modified", JVal.s "2024-01-01")]
      "2024-01-01" "2024-06-01" 0 1 10 rfl rfl (by decide)
      (by decide) (by decide)).1 (by decide),
   (c8_content_staleness
      [("_cache_timestamp", JVal.num 0), ("dataset_modified", JVal.s "2024-01-01")]
      "2024-01-01" "2024-01-01" 0 1 10 rfl rfl (by decide)
      (by decide) (by decide)).2 rfl⟩

set_option maxRecDepth 10000 in
/-- C1: the consolidated-error contract does not hold.  The fallback
never returns a record containing an `error` key — for any input at all
— because line 1116 unconditionally inserts `publisher` (possibly as
`None`) into the record, so the `core_data_found` guard of line 1198 is
always true and the consolidated-error branch is unreachable.  At the
all-failures input the function returns a partial record carrying
`error_<prop>` markers, `publisher: None`, an empty `distributions`
list and `sparql_errors`, which `get_dataset_metadata` then treats as a
success. -/
theorem c1_consolidated_error_branch_unreachable :
    (∀ (uri : String) (inp : FallbackInput),
      containsKey (get_metadata_from_sparql_fallback uri inp) "error" = false)
    ∧ lookupKey (get_metadata_from_sparql_fallback "u" allErrorsFallbackInput)
        "error" = none
    ∧ lookupKey (get_metadata_from_sparql_fallback "u" allErrorsFallbackInput)
        "error_title"
        = some (JVal.s "Failed to fetch SPARQL property title: HTTP 503")
    ∧ lookupKey (get_metadata_from_sparql_fallback "u" allErrorsFallbackInput)
        "error_distributions"
        = some (JVal.s "Failed to fetch SPARQL distributions: HTTP 503")
    ∧ lookupKey (get_metadata_from_sparql_fallback "u" allErrorsFallbackInput)
        "distributions" = some (JVal.list [])
    ∧ lookupKey (get_metadata_from_sparql_fallback "u" allErrorsFallbackInput)
        "publisher" = some JVal.null
    ∧ containsKey (get_metadata_from_sparql_fallback "u" allErrorsFallbackInput)
        "sparql_errors" = true := by
  refine ⟨?_, rfl, rfl, rfl, rfl, rfl, rfl⟩
  intro uri inp
  rw [get_metadata_from_sparql_fallback_eq]
  by_cases he : ((fallbackCore uri inp).2).isEmpty
  · rw [if_pos he]
    exact fallbackCore_no_error uri inp
  · rw [if_neg he, containsKey_setKey_ne _ _ _ _ (by decide)]
    exact fallbackCore_no_error uri inp

set_option maxRecDepth 10000 in
/-- C2 counterexample: (1) a successful SPARQL-fallback resolution
in which the publisher-name query returned no rows yields a record
containing `publisher` with value `None`, refuting the no-null-values
part of the claim; (2) a successful REST resolution of a dataset with no
distributions yields a record with no `distributions` key at all
(line 940 strips empty lists, `distributions` included), refuting the
part claiming `distributions` is always present. -/
theorem c2_counterexample_null_publisher_and_missing_distributions :
    containsKey (get_metadata_from_sparql_fallback "u" titleOnlyFallbackInput)
      "error" = false
    ∧ lookupKey (get_metadata_from_sparql_fallback "u" titleOnlyFallbackInput)
        "publisher" = some JVal.null
    ∧ get_metadata_from_rest_api c2RestUri "en" (RestOutcome.ok c2RestBody)
        = [("uri", JVal.s c2RestUri), ("title", JVal.s "Example")]
    ∧ containsKey (get_metadata_from_rest_api c2RestUri "en" (RestOutcome.ok c2RestBody))
        "distributions" = false :=
  ⟨rfl, rfl, rfl, rfl⟩

/-- C2 (amended): for every REST-path resolution the returned record
contains no null values and no empty-sequence values — in particular an
empty `distributions` sequence is omitted rather than kept.  For every
SPARQL-fallback resolution, `distributions` is always present (possibly
empty); the only key that may hold null is `publisher`, and the only
keys that may hold an empty sequence are `distributions` and the
multi-valued properties `keywords`/`themes`/`languages`/`licenses`. -/
theorem c2_record_shape_invariants :
    (∀ (datasetUri locale : String) (outcome : RestOutcome),
      ∀ kv ∈ get_metadata_from_rest_api datasetUri locale outcome,
        isNull kv.2 = false ∧ isEmptyList kv.2 = false)
    ∧ (∀ (uri : String) (inp : FallbackInput),
        containsKey (get_metadata_from_sparql_fallback uri inp) "distributions" = true)
    ∧ (∀ (uri : String) (inp : FallbackInput),
        ∀ kv ∈ get_metadata_from_sparql_fallback uri inp,
          (isNull kv.2 = true → kv.1 = "publisher")
          ∧ (isEmptyList kv.2 = true → kv.1 ∈ allowedEmptyKeys)) := by
  refine ⟨rest_entries_clean, ?_, ?_⟩
  · intro uri inp
    rw [get_metadata_from_sparql_fallback_eq]
    by_cases he : ((fallbackCore uri inp).2).isEmpty
    · rw [if_pos he]
      exact fallbackCore_contains_dists uri inp
    · rw [if_neg he]
      exact containsKey_setKey_of _ _ _ _ (fallbackCore_contains_dists uri inp)
  · intro uri inp kv hkv
    rw [get_metadata_from_sparql_fallback_eq] at hkv
    by_cases he : ((fallbackCore uri inp).2).isEmpty
    · rw [if_pos he] at hkv
      exact fallbackCore_entryOk uri inp kv hkv
    · rw [if_neg he] at hkv
      rcases mem_setKey _ _ _ _ hkv with hold | hnew
      · exact fallbackCore_entryOk uri inp kv hold
      · rw [hnew]
        refine ⟨fun h => by simp [isNull] at h, fun h => ?_⟩
        exfalso
        cases herrs : (fallbackCore uri inp).2 with
        | nil => rw [herrs] at he; exact he rfl
        | cons e es =>
          rw [herrs] at h
          simp [isEmptyList] at h

set_option maxRecDepth 10000 in
/-- C2 witness. -/
theorem c2_record_shape_invariants_witness :
    (isNull (JVal.s "Example") = false ∧ isEmptyList (JVal.s "Example") = false)
    ∧ containsKey (get_metadata_from_sparql_fallback "u" titleOnlyFallbackInput)
        "distributions" = true
    ∧ (isNull JVal.null = true → ("publisher" : String) = "publisher") :=
  ⟨c2_record_shape_invariants.1 c2RestUri "en" (RestOutcome.ok c2RestBody)
      ("title", JVal.s "Example")
      (by rw [show get_metadata_from_rest_api c2RestUri "en" (RestOutcome.ok c2RestBody)
          = [("uri", JVal.s c2RestUri), ("title", JVal.s "Example")] from rfl]; simp),
   c2_record_shape_invariants.2.1 "u" titleOnlyFallbackInput,
   (c2_record_shape_invariants.2.2 "u" titleOnlyFallbackInput ("publisher", JVal.null)
      (by rw [show get_metadata_from_sparql_fallback "u" titleOnlyFallbackInput
          = [("uri", JVal.s "u"), ("sparql_uri_used", JVal.s "u"),
             ("title", JVal.s "Example dataset"), ("publisher", JVal.null),
             ("distributions", JVal.list [])] from rfl]; simp)).1⟩

/-- C9: `get_distribution_formats` always returns a list and never
an error record: the empty list when the metadata record is an error
record or has a missing or empty `distributions` sequence, and the
record's distributions when resolution succeeded with a non-empty
sequence.  Both metadata producers only ever store a list under
`distributions`, so the well-typedness hypothesis holds for every
record the function can receive. -/
theorem c9_get_distribution_formats_contract (m : Rec)
    (h : distributionsWellTyped m) :
    (∃ l, get_distribution_formats m = JVal.list l)
    ∧ (containsKey m "error" = true → get_distribution_formats m = JVal.list [])
    ∧ (lookupKey m "distributions" = none →
        get_distribution_formats m = JVal.list [])
    ∧ (lookupKey m "distributions" = some (JVal.list []) →
        get_distribution_formats m = JVal.list [])
    ∧ (∀ l, l ≠ [] → containsKey m "error" = false →
        lookupKey m "distributions" = some (JVal.list l) →
        get_distribution_formats m = JVal.list l)
    ∧ (∀ (uri : String) (inp : FallbackInput),
        distributionsWellTyped (get_metadata_from_sparql_fallback uri inp))
    ∧ (∀ (datasetUri locale : String) (outcome : RestOutcome),
        distributionsWellTyped (get_metadata_from_rest_api datasetUri locale outcome)) := by
  refine ⟨?_, ?_, ?_, ?_, ?_, fallback_distributionsWellTyped,
    rest_distributionsWellTyped⟩
  · by_cases he : containsKey m "error" = true
    · exact ⟨[], by simp [get_distribution_formats, he]⟩
    · by_cases ht : pyTruthy (getKeyD m "distributions" JVal.null) = true
      · cases hl : lookupKey m "distributions" with
        | none =>
          rw [getKeyD, hl] at ht
          simp [pyTruthy] at ht
        | some v =>
          rcases h v hl with ⟨l, rfl⟩
          refine ⟨l, ?_⟩
          rw [getKeyD, hl] at ht
          simp only [Option.getD_some] at ht
          simp [get_distribution_formats, he, ht, getKeyD, hl]
      · exact ⟨[], by simp [get_distribution_formats, he, ht]⟩
  · intro he
    simp [get_distribution_formats, he]
  · intro hl
    simp [get_distribution_formats, getKeyD, hl, pyTruthy]
  · intro hl
    simp [get_distribution_formats, getKeyD, hl, pyTruthy]
  · intro l hne herr hl
    have ht2 : pyTruthy (JVal.list l) = true := by
      simp [pyTruthy, hne]
    simp [get_distribution_formats, herr, getKeyD, hl, ht2]

/-- C9 witness. -/
theorem c9_get_distribution_formats_contract_witness :
    get_distribution_formats
        [("distributions", JVal.list [JVal.obj [("uri", JVal.s "d")]])]
      = JVal.list [JVal.obj [("uri", JVal.s "d")]] :=
  (c9_get_distribution_formats_contract
    [("distributions", JVal.list [JVal.obj [("uri", JVal.s "d")]])]
    (by
      intro v hv
      simp [lookupKey] at hv
      exact ⟨_, hv.symm⟩)).2.2.2.2.1
    [JVal.obj [("uri", JVal.s "d")]] (by simp) rfl rfl

set_option maxRecDepth 100000 in
/-- C3: `clear_cache(uri)` removes the two per-URI metadata cache
files and nothing unrelated, but removes no SPARQL sub-query cache file:
sub-query files are named `sparql_{md5-hash}_{suffix}.json` while the
prefixes matched are `sparql_prop_{sanitized}` / `sparql_dist_{sanitized}`,
and an md5 hex digest can never begin with `prop_` or `dist_` (shown in
general in the last conjunct: the hash's first two characters are hex
digits, and `p` / `i` are not hex digits).  A subsequent `clear_cache()`
with no argument removes every remaining file. -/
theorem c3_clear_cache_leaves_subquery_files :
    clear_cache_uri c3Files c3Uri = [c3PropFile, c3DistFile, "unrelated.json"]
    ∧ clear_cache_all (clear_cache_uri c3Files c3Uri) = []
    ∧ (∀ (hash suffix uriSan : String) (h0 h1 : Char) (rest : List Char),
        hash.data = h0 :: h1 :: rest → isHexDigit h0 = true → isHexDigit h1 = true →
        strStarts (sparqlCacheFileName hash suffix) ("sparql_prop_" ++ uriSan) = false
        ∧ strStarts (sparqlCacheFileName hash suffix) ("sparql_dist_" ++ uriSan) = false) := by
  refine ⟨by decide, rfl, ?_⟩
  intro hash suffix uriSan h0 h1 rest heq hx0 hx1
  have hp : ('p' == h0) = false := beq_eq_false_iff_ne.mpr (fun hh => by
    rw [← hh] at hx0
    exact absurd hx0 (by decide))
  have hi : ('i' == h1) = false := beq_eq_false_iff_ne.mpr (fun hh => by
    rw [← hh] at hx1
    exact absurd hx1 (by decide))
  have hfile : (sparqlCacheFileName hash suffix).data
      = 's' :: 'p' :: 'a' :: 'r' :: 'q' :: 'l' :: '_' :: 
        (hash.data ++ ("_".data ++ (suffix.data ++ ".json".data))) := by
    show ((("sparql_".data ++ hash.data) ++ "_".data) ++ suffix.data) ++ ".json".data = _
    rw [List.append_assoc, List.append_assoc, List.append_assoc]
    rfl
  constructor
  · show List.isPrefixOf ("sparql_prop_" ++ uriSan).data
      (sparqlCacheFileName hash suffix).data = false
    rw [hfile, heq]
    show List.isPrefixOf
      ('s' :: 'p' :: 'a' :: 'r' :: 'q' :: 'l' :: '_' :: 'p' :: 'r' :: 'o' :: 'p' :: '_' :: uriSan.data) _ = false
    simp [List.isPrefixOf, hp]
  · show List.isPrefixOf ("sparql_dist_" ++ uriSan).data
      (sparqlCacheFileName hash suffix).data = false
    rw [hfile, heq]
    show List.isPrefixOf
      ('s' :: 'p' :: 'a' :: 'r' :: 'q' :: 'l' :: '_' :: 'd' :: 'i' :: 's' :: 't' :: '_' :: uriSan.data) _ = false
    simp [List.isPrefixOf, hi]

/-- C3 witness. -/
theorem c3_clear_cache_leaves_subquery_files_witness :
    strStarts (sparqlCacheFileName c3Hash (propCacheSuffix c3Uri "title"))
      ("sparql_prop_" ++ sanitize_filename c3Uri) = false :=
  (c3_clear_cache_leaves_subquery_files.2.2 c3Hash (propCacheSuffix c3Uri "title")
    (sanitize_filename c3Uri) '0' '1' "23456789abcdef0123456789abcdef".data
    rfl (by decide) (by decide)).1
